import Mathlib

/-!
Shallow embedding of the tabletop text-adventure engine
(`src/engine/GameState.js`, `src/engine/CommandParser.js`,
`src/engine/GameRules.js`, plus the `checkGameCompletion` step of `main.js`).

JavaScript conventions are modelled as follows:
* optional string fields are `Option String`; a JS truthiness test on such a
  field (`if (x)`) is `truthyStr`, which treats both `undefined` and the empty
  string as falsy;
* JS `Map` objects (item locations, dialogue pointers) are association lists
  with first-occurrence lookup and in-place overwrite, matching `Map`
  insertion-order iteration;
* the flag store only ever receives boolean `true` from the engine
  (`setFlag(name, true)` at every call site), so flag values are `Bool` and
  `getFlag` is the truthiness of the stored value;
* the renderer is replaced by a list of emitted `Narration` events, one
  constructor per renderer display method used by the engine.
-/

/-- JS truthiness for an optional string: `undefined`/missing and `""` are
falsy; any other string is its own truthy value. -/
def truthyStr : Option String → Option String
  | none => none
  | some s => if s = "" then none else some s

/-- JS `x || fallback` for an optional string `x`. -/
def strOr (x : Option String) (fallback : String) : String :=
  match truthyStr x with
  | some s => s
  | none => fallback

/-- First-occurrence lookup in an association list (JS `Map.get` / object
property read). -/
def alGet {α : Type} : List (String × α) → String → Option α
  | [], _ => none
  | (k, v) :: rest, key => if k = key then some v else alGet rest key

/-- Overwrite-or-append update of an association list (JS `Map.set`): an
existing key keeps its position, a new key goes to the end. -/
def alSet {α : Type} : List (String × α) → String → α → List (String × α)
  | [], key, v => [(key, v)]
  | (k, w) :: rest, key, v =>
    if k = key then (key, v) :: rest else (k, w) :: alSet rest key v

/-- Whether the character list `needle` occurs at the start of `hay`. -/
def charsAt : List Char → List Char → Bool
  | [], _ => true
  | _ :: _, [] => false
  | n :: ns, h :: hs => (n = h) && charsAt ns hs

/-- Whether the character list `needle` occurs anywhere inside `hay`. -/
def charsIn (needle : List Char) : List Char → Bool
  | [] => charsAt needle []
  | h :: hs => charsAt needle (h :: hs) || charsIn needle hs

/-- JS `hay.includes(needle)` substring containment. -/
def strIncludes (hay needle : String) : Bool :=
  charsIn needle.toList hay.toList

/-- JS `toLowerCase` on the character list of the string (kernel-computable
version of `String.toLower`). -/
def toLowerStr (s : String) : String := ⟨s.data.map Char.toLower⟩

/-- Split a character list at separators (JS `String.split`: empty chunks
between adjacent separators are kept). -/
def splitList (p : Char → Bool) : List Char → List (List Char)
  | [] => [[]]
  | ch :: rest =>
    match splitList p rest with
    | [] => if p ch then [[], []] else [[ch]]
    | grp :: grps => if p ch then [] :: grp :: grps else (ch :: grp) :: grps

/-- JS `Array.join(sep)` / Lean `String.intercalate`, kernel-computable. -/
def intercalateStr (sep : String) : List String → String
  | [] => ""
  | [x] => x
  | x :: rest => x ++ sep ++ intercalateStr sep rest

/-- A use-action of an item (`items.json` entry of `useActions`):
`{ target?, message?, setFlag?, giveItem?, consume? }`. -/
structure UseAction where
  target : Option String := none
  message : Option String := none
  setFlag : Option String := none
  giveItem : Option String := none
  consume : Bool := false
  deriving Repr, DecidableEq

/-- A generic event record `{ message?, setFlag?, giveItem? }` (item
`onTake` events). -/
structure Event where
  message : Option String := none
  setFlag : Option String := none
  giveItem : Option String := none
  deriving Repr, DecidableEq

/-- An item definition. `takeable`/`visible` model the JS checks
`item.takeable === false` and `item.visible !== false` (default `true`). -/
structure Item where
  id : String
  name : String
  description : String := ""
  shortDescription : Option String := none
  aliases : List String := []
  takeable : Bool := true
  visible : Bool := true
  useActions : List UseAction := []
  useFailMessage : Option String := none
  takeFailMessage : Option String := none
  onTake : Option Event := none
  stateDescriptions : List (String × String) := []
  deriving Repr, DecidableEq

/-- One node of a character's dialogue tree. -/
structure DialogueNode where
  id : String
  text : String
  setFlag : Option String := none
  giveItem : Option String := none
  nextNode : Option String := none
  loop : Option String := none
  deriving Repr, DecidableEq

/-- A character definition. -/
structure Character where
  id : String
  name : String
  description : String := ""
  aliases : List String := []
  defaultGreeting : Option String := none
  dialogue : List DialogueNode := []
  deriving Repr, DecidableEq

/-- A locked-exit record from `rooms.json`:
`{ requiresItem?, requiresFlag?, message? }`. -/
structure LockedExit where
  requiresItem : Option String := none
  requiresFlag : Option String := none
  message : Option String := none
  deriving Repr, DecidableEq

/-- A room definition; absent optional JS fields are empty lists here. -/
structure Room where
  id : String
  name : String
  description : String := ""
  exits : List (String × String) := []
  lockedExits : List (String × LockedExit) := []
  items : List String := []
  characters : List String := []
  features : List (String × String) := []
  deriving Repr, DecidableEq

/-- The immutable content tables handed to `GameRules`. -/
structure Content where
  rooms : List Room
  items : List Item
  characters : List Character
  deriving Repr, DecidableEq

/-- One configured objective `{ flag, description }`. -/
structure Objective where
  flag : String
  description : String
  deriving Repr, DecidableEq

/-- The session configuration record (`config.json`). -/
structure Config where
  startingRoom : String
  objectives : Option (List Objective) := none
  victoryText : Option String := none
  deriving Repr, DecidableEq

/-- `roomsById` / `itemsById` / `charactersById` lookup: the JS constructor
fills a `Map` by `set`, so with duplicate ids the LAST entry wins. -/
def byId {α : Type} (key : α → String) (l : List α) (i : String) : Option α :=
  l.foldl (fun acc x => if key x = i then some x else acc) none

/-- The mutable session state (`GameState`), without the UI-only command
history fields, which no game rule reads. -/
structure GameState where
  currentRoomId : String
  inventory : List String
  flags : List (String × Bool)
  visitedRooms : List String
  itemLocations : List (String × String)
  characterDialogueState : List (String × String)
  deriving Repr, DecidableEq

/-- `GameState.getFlag` truthiness: an unset flag is falsy. -/
def getFlag (st : GameState) (flagName : String) : Bool :=
  (alGet st.flags flagName).getD false

/-- `GameState.setFlag`. -/
def setFlag (st : GameState) (flagName : String) (value : Bool) : GameState :=
  { st with flags := alSet st.flags flagName value }

/-- `GameState.hasItem`. -/
def hasItem (st : GameState) (itemId : String) : Bool :=
  st.inventory.contains itemId

/-- `GameState.addItem`: appends only if absent, and then records the
location as `"inventory"`. -/
def addItem (st : GameState) (itemId : String) : GameState :=
  if st.inventory.contains itemId then st
  else { st with
          inventory := st.inventory ++ [itemId],
          itemLocations := alSet st.itemLocations itemId ("inventory") }

/-- `GameState.removeItem`: removes the first occurrence from the inventory
and does NOT touch the location record. -/
def removeItem (st : GameState) (itemId : String) : GameState :=
  { st with inventory := st.inventory.erase itemId }

/-- `GameState.setItemLocation`. -/
def setItemLocation (st : GameState) (itemId location : String) : GameState :=
  { st with itemLocations := alSet st.itemLocations itemId location }

/-- `GameState.markRoomVisited` (set insertion). -/
def markRoomVisited (st : GameState) (roomId : String) : GameState :=
  if st.visitedRooms.contains roomId then st
  else { st with visitedRooms := st.visitedRooms ++ [roomId] }

/-- `GameState.getItemsInRoom`: ids whose recorded location is the room, in
`Map` insertion order. -/
def stateItemsInRoom (st : GameState) (roomId : String) : List String :=
  (st.itemLocations.filter (fun p => p.2 = roomId)).map (fun p => p.1)

/-- `GameState.setDialogueState`. -/
def setDialogueState (st : GameState) (characterId nodeId : String) : GameState :=
  { st with characterDialogueState := alSet st.characterDialogueState characterId nodeId }

/-- `GameState.initializeItemLocations`, called from the `GameRules`
constructor with the room table. -/
def initializeItemLocations (rooms : List Room) : List (String × String) :=
  rooms.foldl (fun m room => room.items.foldl (fun m itemId => alSet m itemId room.id) m) []

/-- A fresh session state (`new GameState(config)` followed by the
`GameRules` constructor's `initializeItemLocations` call). -/
def initState (cfg : Config) (c : Content) : GameState :=
  { currentRoomId := cfg.startingRoom
    inventory := []
    flags := []
    visitedRooms := []
    itemLocations := initializeItemLocations c.rooms
    characterDialogueState := [] }

/-- Narration events, one per renderer display method the engine calls. -/
inductive Narration where
  | message (text : String)
  | error (text : String)
  | warning (text : String)
  | success (text : String)
  | system (text : String)
  | dialogue (speaker text : String)
  | room (roomId : String) (itemIds : List String) (characterIds : List String)
      (exitDirections : List String)
  deriving Repr, DecidableEq

/-!
## Command Interpreter (`CommandParser.js`)

The parser is configured from `commands.json` with a verb-synonym table and a
direction-synonym table; both are association lists here.
-/

/-- The parsed command object `{ verb, noun, preposition, target, raw, tokens }`. -/
structure Command where
  verb : String
  noun : Option String
  preposition : Option String
  target : Option String
  raw : String
  tokens : List String
  deriving Repr, DecidableEq

/-- `CommandParser.prepositions`. -/
def prepositions : List String := ["on", "with", "to", "in", "at", "from", "into"]

/-- `CommandParser.articles`. -/
def articles : List String := ["the", "a", "an"]

/-- `CommandParser.normalizeInput`: lowercase, trim, collapse internal
whitespace runs to single spaces. -/
def normalizeInput (input : String) : String :=
  intercalateStr " "
    (((splitList Char.isWhitespace (toLowerStr input).data).filter (fun t => t ≠ [])).map
      (fun cs => (⟨cs⟩ : String)))

/-- `CommandParser.tokenize`: split a normalized string on spaces, dropping
empty tokens. -/
def tokenize (input : String) : List String :=
  ((splitList (fun ch => ch = ' ') input.data).map (fun cs => (⟨cs⟩ : String))).filter
    (fun token => token.length > 0)

/-- `CommandParser.removeArticles`. -/
def removeArticles (tokens : List String) : List String :=
  tokens.filter (fun token => ¬ articles.contains token)

/-- `CommandParser.resolveVerbSynonym`: `verbSynonyms[verb] || verb`. -/
def resolveVerbSynonym (verbSynonyms : List (String × String)) (verb : String) : String :=
  strOr (alGet verbSynonyms verb) verb

/-- `CommandParser.resolveDirection`: `directionSynonyms[d] || d` on the
lowercased word, using the content-provider direction table. -/
def resolveDirection (directionSynonyms : List (String × String)) (direction : String) : String :=
  strOr (alGet directionSynonyms (toLowerStr direction)) (toLowerStr direction)

/-- `CommandParser.findPrepositionIndex`: index of the first preposition
token, or `none`. -/
def findPrepositionIndex (tokens : List String) : Option Nat :=
  tokens.findIdx? (fun token => prepositions.contains token)

/-- `CommandParser.parseNounPhrase`: split the post-verb tokens into noun,
preposition and target; movement verbs instead treat the first token as a
direction resolved through the content direction table. -/
def parseNounPhrase (directionSynonyms : List (String × String)) (tokens : List String)
    (verb : String) : Option String × Option String × Option String :=
  match tokens with
  | [] => (none, none, none)
  | firstTok :: _ =>
    if verb = "go" ∨ verb = "walk" ∨ verb = "move" then
      (some (resolveDirection directionSynonyms firstTok), none, none)
    else
      match findPrepositionIndex tokens with
      | none => (some (intercalateStr " " tokens), none, none)
      | some prepIndex =>
        let nounTokens := tokens.take prepIndex
        let preposition := tokens.getD prepIndex ""
        let targetTokens := tokens.drop (prepIndex + 1)
        (if nounTokens.length > 0 then some (intercalateStr " " nounTokens) else none,
         some preposition,
         if targetTokens.length > 0 then some (intercalateStr " " targetTokens) else none)

/-- `CommandParser.createEmptyCommand`. -/
def createEmptyCommand (raw : String) : Command :=
  { verb := "", noun := none, preposition := none, target := none, raw := raw, tokens := [] }

/-- `CommandParser.parse`. -/
def parse (verbSynonyms directionSynonyms : List (String × String)) (input : String) : Command :=
  let normalized := normalizeInput input
  if normalized = "" then createEmptyCommand input
  else
    let tokens := tokenize normalized
    let cleanTokens := removeArticles tokens
    match cleanTokens with
    | [] => createEmptyCommand input
    | rawVerb :: rest =>
      let verb := resolveVerbSynonym verbSynonyms rawVerb
      let phrase := parseNounPhrase directionSynonyms rest verb
      { verb := verb, noun := phrase.1, preposition := phrase.2.1, target := phrase.2.2,
        raw := input, tokens := cleanTokens }

/-!
## Rule Engine (`GameRules.js`)

Each JS handler receives the whole parsed command but reads only `noun`
(and `target` for `use`); the embedded handlers take exactly those fields.
All handlers return the updated state together with the narration emitted
through the renderer, in emission order.
-/

/-- `GameRules.matchesName` on raw name/id/alias data: exact lowercased name,
exact lowercased id, substring containment of the search term in the
lowercased name, exact lowercased alias — a per-entity disjunction. -/
def matchesName (name id : String) (aliases : List String) (searchName : String) : Bool :=
  (toLowerStr name) = searchName
  || (toLowerStr id) = searchName
  || strIncludes (toLowerStr name) searchName
  || aliases.any (fun a => (toLowerStr a) = searchName)

/-- `matchesName` applied to an item. -/
def itemMatches (item : Item) (searchName : String) : Bool :=
  matchesName item.name item.id item.aliases searchName

/-- `matchesName` applied to a character. -/
def characterMatches (ch : Character) (searchName : String) : Bool :=
  matchesName ch.name ch.id ch.aliases searchName

/-- `GameRules.getCurrentRoom`: current room object via `roomsById`. -/
def getCurrentRoomObj (c : Content) (st : GameState) : Option Room :=
  byId Room.id c.rooms st.currentRoomId

/-- `GameRules.findItemInInventory`: first inventory id (in inventory order)
that resolves to an item matching the search term. -/
def findItemInInventory (c : Content) (st : GameState) (name : String) : Option Item :=
  st.inventory.findSome? (fun itemId =>
    match byId Item.id c.items itemId with
    | some item => if itemMatches item name then some item else none
    | none => none)

/-- `GameRules.findItemInRoom`: same scan over the ids located in the current
room. -/
def findItemInRoom (c : Content) (st : GameState) (name : String) : Option Item :=
  (stateItemsInRoom st st.currentRoomId).findSome? (fun itemId =>
    match byId Item.id c.items itemId with
    | some item => if itemMatches item name then some item else none
    | none => none)

/-- `GameRules.findCharacterInRoom`. -/
def findCharacterInRoom (c : Content) (st : GameState) (name : String) : Option Character :=
  match getCurrentRoomObj c st with
  | none => none
  | some room =>
    room.characters.findSome? (fun charId =>
      match byId Character.id c.characters charId with
      | some ch => if characterMatches ch name then some ch else none
      | none => none)

/-- `GameRules.matchesEntity`: resolve the configured id against the item and
character tables and compare names. -/
def matchesEntity (c : Content) (entityId searchName : String) : Bool :=
  (match byId Item.id c.items entityId with
   | some item => itemMatches item searchName
   | none => false)
  || (match byId Character.id c.characters entityId with
      | some ch => characterMatches ch searchName
      | none => false)

/-- `GameRules.getItemsInRoom`: full item objects in a room whose `visible`
flag is not `false`. -/
def visibleItemsInRoom (c : Content) (st : GameState) (roomId : String) : List Item :=
  ((stateItemsInRoom st roomId).filterMap (byId Item.id c.items)).filter
    (fun item => item.visible ≠ false)

/-- `GameRules.getCharactersInRoom`. -/
def charactersInRoom (c : Content) (roomId : String) : List Character :=
  match byId Room.id c.rooms roomId with
  | none => []
  | some room => room.characters.filterMap (byId Character.id c.characters)

/-- `GameRules.displayRoomDescription`: the room-description narration event
(name/description are determined by the room id; items, characters and exit
keys are listed by id). -/
def displayRoomDescription (c : Content) (st : GameState) (room : Room) : Narration :=
  Narration.room room.id
    ((visibleItemsInRoom c st room.id).map Item.id)
    ((charactersInRoom c room.id).map Character.id)
    (room.exits.map (fun e => e.1))

/-- `GameRules.displayItemDescription` text: base description plus each
state-conditioned overlay whose flag is truthy, in table order. -/
def itemDescriptionText (st : GameState) (item : Item) : String :=
  item.stateDescriptions.foldl
    (fun d p => if getFlag st p.1 then d ++ "\n" ++ p.2 else d)
    item.description

/-- `GameRules.isDirection`: the hard-coded direction word list. -/
def isDirection (word : String) : Bool :=
  ["north", "south", "east", "west", "n", "s", "e", "w",
   "northeast", "northwest", "southeast", "southwest",
   "ne", "nw", "se", "sw", "up", "down", "u", "d"].contains (toLowerStr word)

/-- `GameRules.resolveDirectionSynonym`: the FIXED built-in abbreviation
table of the Rule Engine (independent of the content-provider direction
table). -/
def resolveDirectionSynonymBuiltin (direction : String) : String :=
  strOr (alGet [("n", "north"), ("s", "south"), ("e", "east"), ("w", "west"),
                ("ne", "northeast"), ("nw", "northwest"), ("se", "southeast"),
                ("sw", "southwest"), ("u", "up"), ("d", "down")] direction)
    direction

/-- `GameRules.checkUnlockCondition`: required item in inventory (when
specified) AND required flag truthy (when specified); each part is skipped
when its field is absent/falsy. -/
def checkUnlockCondition (st : GameState) (lockedInfo : LockedExit) : Bool :=
  (match truthyStr lockedInfo.requiresItem with
   | some itemId => hasItem st itemId
   | none => true)
  && (match truthyStr lockedInfo.requiresFlag with
      | some flagName => getFlag st flagName
      | none => true)

/-- `GameRules.showAvailableExits`. -/
def showAvailableExits (room : Room) : List Narration :=
  if room.exits.isEmpty then []
  else [Narration.message ("Available exits: "
    ++ intercalateStr ", " (room.exits.map (fun e => e.1)))]

/-- `GameRules.processEvent`: apply `{message?, setFlag?, giveItem?}`. -/
def processEvent (ev : Event) (st : GameState) : GameState × List Narration :=
  let narr := match truthyStr ev.message with
    | some m => [Narration.message m]
    | none => []
  let st1 := match truthyStr ev.setFlag with
    | some f => setFlag st f true
    | none => st
  let st2 := match truthyStr ev.giveItem with
    | some g => addItem st1 g
    | none => st1
  (st2, narr)

/-- `GameRules.executeUseAction`: message, flag, granted item (with an
"obtained" notice when the granted id resolves), then consumable removal. -/
def executeUseAction (c : Content) (item : Item) (action : UseAction) (st : GameState) :
    GameState × List Narration :=
  let narrMessage := match truthyStr action.message with
    | some m => [Narration.success m]
    | none => []
  let st1 := match truthyStr action.setFlag with
    | some f => setFlag st f true
    | none => st
  let give := match truthyStr action.giveItem with
    | some gid =>
      let given := addItem st1 gid
      match byId Item.id c.items gid with
      | some givenItem => (given, [Narration.message ("You obtained: " ++ givenItem.name)])
      | none => (given, [])
    | none => (st1, [])
  let st3 := if action.consume then setItemLocation (removeItem give.1 item.id) item.id ("nowhere")
    else give.1
  (st3, narrMessage ++ give.2)

/-- `GameRules.displayDialogueNode`: show the node text, apply side effects,
advance the stored pointer to `nextNode`, else to `loop`, else leave it. -/
def displayDialogueNode (c : Content) (ch : Character) (node : DialogueNode) (st : GameState) :
    GameState × List Narration :=
  let st1 := match truthyStr node.setFlag with
    | some f => setFlag st f true
    | none => st
  let give := match truthyStr node.giveItem with
    | some gid =>
      let given := addItem st1 gid
      match byId Item.id c.items gid with
      | some item => (given, [Narration.success (ch.name ++ " gives you: " ++ item.name)])
      | none => (given, [])
    | none => (st1, [])
  let st3 := match truthyStr node.nextNode with
    | some nxt => setDialogueState give.1 ch.id nxt
    | none =>
      match truthyStr node.loop with
      | some loopId => setDialogueState give.1 ch.id loopId
      | none => give.1
  (st3, [Narration.dialogue ch.name node.text] ++ give.2)

/-- `GameRules.runDialogue`: greeting for an empty tree, else show the node
at the stored pointer (entry node when the pointer is unset or stale). -/
def runDialogue (c : Content) (ch : Character) (st : GameState) : GameState × List Narration :=
  match ch.dialogue with
  | [] =>
    (st, [Narration.message (strOr ch.defaultGreeting
      (ch.name ++ " doesn't seem to have anything to say."))])
  | firstNode :: _ =>
    let currentNodeId :=
      match truthyStr (alGet st.characterDialogueState ch.id) with
      | some saved => saved
      | none => firstNode.id
    match ch.dialogue.find? (fun n => n.id = currentNodeId) with
    | none => displayDialogueNode c ch firstNode st
    | some node => displayDialogueNode c ch node st

/-- The predicate `handleUse` scans use-actions with when a target was given:
literal case-insensitive match of the configured target, or entity
resolution of the configured target against items/characters. -/
def useActionMatchesTarget (c : Content) (targetName : String) (action : UseAction) : Bool :=
  match truthyStr action.target with
  | none => false
  | some configured =>
    (toLowerStr configured) = targetName || matchesEntity c configured targetName

/-- `GameRules.handleGo` after lock and target checks pass: move, narrate,
mark visited (in source order: move, narrate, mark). -/
def performMove (c : Content) (st : GameState) (direction targetRoomId : String) :
    GameState × List Narration :=
  match byId Room.id c.rooms targetRoomId with
  | none => (st, [Narration.error ("Error: Target room \"" ++ targetRoomId ++ "\" not found!")])
  | some targetRoom =>
    let st1 := { st with currentRoomId := targetRoomId }
    let narr := [Narration.message ("You go " ++ direction ++ ".\n"),
                 displayRoomDescription c st1 targetRoom]
    (markRoomVisited st1 targetRoomId, narr)

/-- `GameRules.handleGo`. -/
def handleGo (c : Content) (noun : Option String) (st : GameState) :
    GameState × List Narration :=
  match truthyStr noun with
  | none => (st, [Narration.error ("Which direction? Try \"go north\" or just \"north\".")])
  | some n =>
    match getCurrentRoomObj c st with
    | none => (st, [Narration.error ("Error: Current room not found!")])
    | some room =>
      let direction := resolveDirectionSynonymBuiltin (toLowerStr n)
      match truthyStr (alGet room.exits direction) with
      | none =>
        (st, [Narration.error ("You can't go " ++ direction ++ " from here.")]
          ++ showAvailableExits room)
      | some targetRoomId =>
        match alGet room.lockedExits direction with
        | some lockedInfo =>
          if ¬ checkUnlockCondition st lockedInfo then
            (st, [Narration.warning (strOr lockedInfo.message
              ("The way " ++ direction ++ " is locked."))])
          else performMove c st direction targetRoomId
        | none => performMove c st direction targetRoomId

/-- `GameRules.handleExamine`: inventory item → room item → room character →
room feature → not-found error. -/
def handleExamine (c : Content) (noun : Option String) (st : GameState) :
    GameState × List Narration :=
  match truthyStr noun with
  | none => (st, [Narration.error ("Examine what? Try \"examine <something>\".")])
  | some n =>
    let thing := (toLowerStr n)
    match findItemInInventory c st thing with
    | some invItem => (st, [Narration.message (itemDescriptionText st invItem)])
    | none =>
      match findItemInRoom c st thing with
      | some roomItem => (st, [Narration.message (itemDescriptionText st roomItem)])
      | none =>
        match findCharacterInRoom c st thing with
        | some ch => (st, [Narration.message ch.description])
        | none =>
          match getCurrentRoomObj c st with
          | some room =>
            match truthyStr (alGet room.features thing) with
            | some featureText => (st, [Narration.message featureText])
            | none => (st, [Narration.error ("You don't see any \"" ++ n ++ "\" here.")])
          | none => (st, [Narration.error ("You don't see any \"" ++ n ++ "\" here.")])

/-- `GameRules.handleLook`: with a noun, delegate to examine; else mark the
current room visited and emit its description. -/
def handleLook (c : Content) (noun : Option String) (st : GameState) :
    GameState × List Narration :=
  match truthyStr noun with
  | some _ => handleExamine c noun st
  | none =>
    match getCurrentRoomObj c st with
    | none => (st, [Narration.error ("Error: Current room not found!")])
    | some room =>
      let st1 := markRoomVisited st room.id
      (st1, [displayRoomDescription c st1 room])

/-- `GameRules.handleTake`. -/
def handleTake (c : Content) (noun : Option String) (st : GameState) :
    GameState × List Narration :=
  match truthyStr noun with
  | none => (st, [Narration.error ("Take what? Try \"take <item>\".")])
  | some n =>
    let itemName := (toLowerStr n)
    match findItemInRoom c st itemName with
    | none =>
      match findItemInInventory c st itemName with
      | some inInventory =>
        (st, [Narration.message ("You already have the " ++ inInventory.name ++ ".")])
      | none => (st, [Narration.error ("You don't see any \"" ++ n ++ "\" here to take.")])
    | some item =>
      if item.takeable = false then
        (st, [Narration.warning (strOr item.takeFailMessage
          ("You can't take the " ++ item.name ++ "."))])
      else
        let st1 := addItem st item.id
        let narr := [Narration.success ("You pick up the " ++ item.name ++ ".")]
        match item.onTake with
        | some ev =>
          let evr := processEvent ev st1
          (evr.1, narr ++ evr.2)
        | none => (st1, narr)

/-- `GameRules.handleDrop`. -/
def handleDrop (c : Content) (noun : Option String) (st : GameState) :
    GameState × List Narration :=
  match truthyStr noun with
  | none => (st, [Narration.error ("Drop what? Try \"drop <item>\".")])
  | some n =>
    match findItemInInventory c st (toLowerStr n) with
    | none => (st, [Narration.error ("You're not carrying any \"" ++ n ++ "\".")])
    | some item =>
      let st1 := setItemLocation (removeItem st item.id) item.id st.currentRoomId
      (st1, [Narration.success ("You drop the " ++ item.name ++ ".")])

/-- `GameRules.handleInventory`. -/
def handleInventory (c : Content) (st : GameState) : GameState × List Narration :=
  if st.inventory.isEmpty then (st, [Narration.message ("You're not carrying anything.")])
  else
    let text := st.inventory.foldl
      (fun acc itemId =>
        match byId Item.id c.items itemId with
        | some item =>
          acc ++ "  • " ++ item.name
            ++ (match truthyStr item.shortDescription with
                | some sd => " - " ++ sd
                | none => "")
            ++ "\n"
        | none => acc)
      "You are carrying:\n"
    (st, [Narration.message text])

/-- `GameRules.handleTalk`. -/
def handleTalk (c : Content) (noun : Option String) (st : GameState) :
    GameState × List Narration :=
  match truthyStr noun with
  | none =>
    match getCurrentRoomObj c st with
    | some room =>
      if room.characters.length > 0 then
        let charNames := intercalateStr ", " (room.characters.map (fun charId =>
          match byId Character.id c.characters charId with
          | some ch => ch.name
          | none => charId))
        (st, [Narration.error ("Talk to whom? You can see: " ++ charNames)])
      else (st, [Narration.error ("There's no one here to talk to.")])
    | none => (st, [Narration.error ("There's no one here to talk to.")])
  | some n =>
    match findCharacterInRoom c st (toLowerStr n) with
    | none => (st, [Narration.error ("You don't see \"" ++ n ++ "\" here to talk to.")])
    | some ch => runDialogue c ch st

/-- `GameRules.handleUse`. -/
def handleUse (c : Content) (noun target : Option String) (st : GameState) :
    GameState × List Narration :=
  match truthyStr noun with
  | none =>
    (st, [Narration.error ("Use what? Try \"use <item>\" or \"use <item> on <target>\".")])
  | some n =>
    let itemName := (toLowerStr n)
    match findItemInInventory c st itemName with
    | none =>
      match findItemInRoom c st itemName with
      | some roomItem =>
        (st, [Narration.warning ("You need to pick up the " ++ roomItem.name
          ++ " first. Try \"take " ++ (toLowerStr roomItem.name) ++ "\".")])
      | none => (st, [Narration.error ("You don't have any \"" ++ n ++ "\".")])
    | some item =>
      if item.useActions.isEmpty then
        (st, [Narration.message (strOr item.useFailMessage
          ("You're not sure how to use the " ++ item.name ++ "."))])
      else
        match truthyStr target with
        | none =>
          match item.useActions.find? (fun action => (truthyStr action.target).isNone) with
          | some defaultAction => executeUseAction c item defaultAction st
          | none =>
            (st, [Narration.error ("Use the " ++ item.name ++ " on what? Try \"use "
              ++ (toLowerStr item.name) ++ " on <target>\".")])
        | some tgt =>
          let targetName := (toLowerStr tgt)
          match item.useActions.find? (useActionMatchesTarget c targetName) with
          | some matchingAction => executeUseAction c item matchingAction st
          | none =>
            (st, [Narration.message ("Nothing happens when you try to use the "
              ++ item.name ++ " on " ++ tgt ++ ".")])

/-- The horizontal bar of the help box (64 box-drawing characters). -/
def helpBar : String := ⟨List.replicate 64 '═'⟩

/-- The static help text of `GameRules.handleHelp` (the box-drawing layout
of the source template literal, newline-joined). -/
def helpText : String :=
  intercalateStr "\n"
    ["",
     "╔" ++ helpBar ++ "╗",
     "║                      STELLAR VOYAGER HELP                       ║",
     "╠" ++ helpBar ++ "╣",
     "║  MOVEMENT                                                       ║",
     "║    go <direction>  - Move in a direction (north, south, etc.)  ║",
     "║    n/s/e/w         - Shortcut for go north/south/east/west     ║",
     "║                                                                 ║",
     "║  EXPLORATION                                                    ║",
     "║    look (or l)     - Describe your surroundings                ║",
     "║    examine <thing> - Look closely at something                 ║",
     "║                                                                 ║",
     "║  INVENTORY                                                      ║",
     "║    take <item>     - Pick up an item                           ║",
     "║    drop <item>     - Put down an item                          ║",
     "║    inventory (or i)- List what you're carrying                 ║",
     "║                                                                 ║",
     "║  INTERACTION                                                    ║",
     "║    talk <person>   - Talk to a character                       ║",
     "║    use <item>      - Use an item                               ║",
     "║    use <item> on <target> - Use item on something              ║",
     "║                                                                 ║",
     "║  OTHER                                                          ║",
     "║    help (or ?)     - Show this help                            ║",
     "╚" ++ helpBar ++ "╝",
     "",
     "TIP: You can use abbreviated directions: n, s, e, w, ne, nw, se, sw, u, d",
     ""]

/-- `GameRules.handleHelp`. -/
def handleHelp (st : GameState) : GameState × List Narration :=
  (st, [Narration.system helpText])

/-- `GameRules.handleQuit`. -/
def handleQuit (st : GameState) : GameState × List Narration :=
  (st, [Narration.message ("Thanks for playing! Refresh the page to start a new game.")])

/-- `GameRules.execute`: empty-verb prompt, bare-direction shortcut (using
the HARD-CODED direction word list), then the fixed verb→handler table,
then the unknown-verb error. -/
def execute (c : Content) (cmd : Command) (st : GameState) : GameState × List Narration :=
  if cmd.verb = "" then
    (st, [Narration.message
      ("What would you like to do? Type \"help\" for available commands.")])
  else if isDirection cmd.verb then handleGo c (some cmd.verb) st
  else if cmd.verb = "look" ∨ cmd.verb = "l" then handleLook c cmd.noun st
  else if cmd.verb = "go" ∨ cmd.verb = "walk" ∨ cmd.verb = "move" then handleGo c cmd.noun st
  else if cmd.verb = "examine" ∨ cmd.verb = "x" ∨ cmd.verb = "inspect" then
    handleExamine c cmd.noun st
  else if cmd.verb = "take" ∨ cmd.verb = "get" ∨ cmd.verb = "grab" ∨ cmd.verb = "pickup" then
    handleTake c cmd.noun st
  else if cmd.verb = "drop" ∨ cmd.verb = "put" ∨ cmd.verb = "discard" then
    handleDrop c cmd.noun st
  else if cmd.verb = "inventory" ∨ cmd.verb = "i" ∨ cmd.verb = "inv" then handleInventory c st
  else if cmd.verb = "talk" ∨ cmd.verb = "speak" ∨ cmd.verb = "chat" then
    handleTalk c cmd.noun st
  else if cmd.verb = "use" ∨ cmd.verb = "activate" then handleUse c cmd.noun cmd.target st
  else if cmd.verb = "help" ∨ cmd.verb = "?" then handleHelp st
  else if cmd.verb = "quit" ∨ cmd.verb = "exit" then handleQuit st
  else
    (st, [Narration.error ("I don't understand \"" ++ cmd.verb
      ++ "\". Type \"help\" to see available commands.")])

/-!
## Session pipeline (`main.js`)
-/

/-- `main.js` `checkGameCompletion`: guarded by the `gameCompleted` flag;
when an objective list is configured and every objective flag is truthy,
record `gameCompleted` and emit the one-time victory narration. -/
def checkGameCompletion (cfg : Config) (st : GameState) : GameState × List Narration :=
  if getFlag st ("gameCompleted") then (st, [])
  else
    match cfg.objectives with
    | some objectives =>
      if objectives.all (fun objective => getFlag st objective.flag) then
        (setFlag st ("gameCompleted") true,
         [Narration.success ("\n" ++ strOr cfg.victoryText
           ("Congratulations! You have completed all objectives!") ++ "\n")])
      else (st, [])
    | none => (st, [])

/-- Parse and execute one raw input line (`main.js` `executeCommand` steps 3
and 4; the echo/history/status-panel steps touch no game rule). -/
def runInput (c : Content) (verbSynonyms directionSynonyms : List (String × String))
    (input : String) (st : GameState) : GameState × List Narration :=
  execute c (parse verbSynonyms directionSynonyms input) st

/-- One full `executeCommand` turn: engine execution followed by the
completion check; returns (new state, engine narration, completion
narration). -/
def stepCommand (cfg : Config) (c : Content)
    (verbSynonyms directionSynonyms : List (String × String)) (st : GameState)
    (input : String) : GameState × List Narration × List Narration :=
  let engine := runInput c verbSynonyms directionSynonyms input st
  let completion := checkGameCompletion cfg engine.1
  (completion.1, engine.2, completion.2)

/-- The state after a list of full turns. -/
def stateAfter (cfg : Config) (c : Content)
    (verbSynonyms directionSynonyms : List (String × String)) (st : GameState)
    (inputs : List String) : GameState :=
  inputs.foldl (fun st input => (stepCommand cfg c verbSynonyms directionSynonyms st input).1) st

/-- The engine state in the middle of turn `i` (after the engine executed
input `i`, before the completion check of that turn). -/
def engineStateAt (cfg : Config) (c : Content)
    (verbSynonyms directionSynonyms : List (String × String)) (st : GameState)
    (inputs : List String) (i : Nat) : GameState :=
  (runInput c verbSynonyms directionSynonyms (inputs.getD i "")
    (stateAfter cfg c verbSynonyms directionSynonyms st (inputs.take i))).1

/-- The victory narration emitted by the completion check of turn `i`. -/
def victoryNarrAt (cfg : Config) (c : Content)
    (verbSynonyms directionSynonyms : List (String × String)) (st : GameState)
    (inputs : List String) (i : Nat) : List Narration :=
  (checkGameCompletion cfg
    (engineStateAt cfg c verbSynonyms directionSynonyms st inputs i)).2

/-- All configured objectives are truthy (false when no list is configured,
in which case the completion check never fires). -/
def allObjectivesComplete (cfg : Config) (st : GameState) : Bool :=
  match cfg.objectives with
  | some objectives => objectives.all (fun objective => getFlag st objective.flag)
  | none => false

/-- Whether any item use-action, item on-take event, or dialogue node of the
content sets the given flag name. -/
def contentSetsFlag (c : Content) (flagName : String) : Bool :=
  c.items.any (fun item =>
    item.useActions.any (fun action => truthyStr action.setFlag = some flagName)
    || (match item.onTake with
        | some ev => truthyStr ev.setFlag = some flagName
        | none => false))
  || c.characters.any (fun ch =>
      ch.dialogue.any (fun node => truthyStr node.setFlag = some flagName))

/-!
## Basic lemmas about the state containers
-/

theorem alGet_alSet_self {α : Type} (m : List (String × α)) (k : String) (v : α) :
    alGet (alSet m k v) k = some v := by
  induction m with
  | nil => simp [alGet, alSet]
  | cons p rest ih =>
    obtain ⟨pk, pv⟩ := p
    by_cases h : pk = k
    · simp [alSet, alGet, h]
    · simp [alSet, alGet, h, ih]

theorem alGet_alSet_ne {α : Type} (m : List (String × α)) (k k' : String) (v : α)
    (h : k' ≠ k) : alGet (alSet m k v) k' = alGet m k' := by
  have h' : ¬ k = k' := fun hh => h hh.symm
  induction m with
  | nil => simp [alGet, alSet, h']
  | cons p rest ih =>
    obtain ⟨pk, pv⟩ := p
    by_cases hp : pk = k
    · subst hp
      simp [alSet, alGet, h']
    · by_cases hp' : pk = k'
      · simp [alSet, alGet, hp, hp', h]
      · simp [alSet, alGet, hp, hp', ih]

theorem alGet_mem {α : Type} (m : List (String × α)) (k : String) (v : α)
    (h : alGet m k = some v) : (k, v) ∈ m := by
  induction m with
  | nil => simp [alGet] at h
  | cons p rest ih =>
    obtain ⟨pk, pv⟩ := p
    by_cases hp : pk = k
    · subst hp
      simp [alGet] at h
      subst h
      exact List.mem_cons_self _ _
    · simp only [alGet, if_neg hp] at h
      exact List.mem_cons_of_mem _ (ih h)

theorem mem_alSet {α : Type} (m : List (String × α)) (k k' : String) (v v' : α)
    (h : (k', v') ∈ alSet m k v) : (k', v') ∈ m ∨ v' = v := by
  induction m with
  | nil =>
    simp only [alSet, List.mem_singleton, Prod.mk.injEq] at h
    exact Or.inr h.2
  | cons p rest ih =>
    obtain ⟨pk, pv⟩ := p
    by_cases hp : pk = k
    · subst hp
      simp [alSet] at h
      rcases h with ⟨_, hv⟩ | h
      · exact Or.inr hv
      · exact Or.inl (List.mem_cons_of_mem _ h)
    · simp only [alSet, if_neg hp, List.mem_cons] at h
      rcases h with h | h
      · exact Or.inl (by simp [h])
      · rcases ih h with h' | h'
        · exact Or.inl (List.mem_cons_of_mem _ h')
        · exact Or.inr h'

theorem getFlag_setFlag_self (st : GameState) (f : String) (v : Bool) :
    getFlag (setFlag st f v) f = v := by
  simp [getFlag, setFlag, alGet_alSet_self]

theorem getFlag_setFlag_ne (st : GameState) (f f' : String) (v : Bool) (h : f' ≠ f) :
    getFlag (setFlag st f v) f' = getFlag st f' := by
  simp [getFlag, setFlag, alGet_alSet_ne _ _ _ _ h]

theorem flags_addItem (st : GameState) (i : String) : (addItem st i).flags = st.flags := by
  unfold addItem
  split <;> rfl

theorem flags_removeItem (st : GameState) (i : String) :
    (removeItem st i).flags = st.flags := rfl

theorem flags_setItemLocation (st : GameState) (i l : String) :
    (setItemLocation st i l).flags = st.flags := rfl

theorem flags_markRoomVisited (st : GameState) (r : String) :
    (markRoomVisited st r).flags = st.flags := by
  unfold markRoomVisited
  split <;> rfl

theorem flags_setDialogueState (st : GameState) (ch n : String) :
    (setDialogueState st ch n).flags = st.flags := rfl

theorem getFlag_eq_of_flags_eq {st st' : GameState} (h : st'.flags = st.flags) (f : String) :
    getFlag st' f = getFlag st f := by
  simp [getFlag, h]

theorem byId_foldl_aux {α : Type} (key : α → String) (l : List α) (i : String)
    (acc : Option α) (x : α)
    (h : l.foldl (fun acc y => if key y = i then some y else acc) acc = some x) :
    (x ∈ l ∧ key x = i) ∨ acc = some x := by
  induction l generalizing acc with
  | nil => exact Or.inr h
  | cons a rest ih =>
    rw [List.foldl_cons] at h
    rcases ih _ h with h' | h'
    · exact Or.inl ⟨List.mem_cons_of_mem _ h'.1, h'.2⟩
    · by_cases ha : key a = i
      · rw [if_pos ha] at h'
        cases h'
        exact Or.inl ⟨List.mem_cons_self _ _, ha⟩
      · rw [if_neg ha] at h'
        exact Or.inr h'

theorem byId_mem {α : Type} (key : α → String) (l : List α) (i : String) (x : α)
    (h : byId key l i = some x) : x ∈ l ∧ key x = i := by
  rcases byId_foldl_aux key l i none x h with h' | h'
  · exact h'
  · cases h'

/-!
## Provenance of resolved entities
-/

theorem findItemInInventory_mem (c : Content) (st : GameState) (n : String) (item : Item)
    (h : findItemInInventory c st n = some item) : item ∈ c.items := by
  unfold findItemInInventory at h
  obtain ⟨a, _, hfa⟩ := List.exists_of_findSome?_eq_some h
  cases hb : byId Item.id c.items a with
  | none => rw [hb] at hfa; simp at hfa
  | some it =>
    rw [hb] at hfa
    by_cases hm : itemMatches it n
    · simp [hm] at hfa
      exact hfa ▸ (byId_mem _ _ _ _ hb).1
    · simp [hm] at hfa

theorem findItemInRoom_mem (c : Content) (st : GameState) (n : String) (item : Item)
    (h : findItemInRoom c st n = some item) : item ∈ c.items := by
  unfold findItemInRoom at h
  obtain ⟨a, _, hfa⟩ := List.exists_of_findSome?_eq_some h
  cases hb : byId Item.id c.items a with
  | none => rw [hb] at hfa; simp at hfa
  | some it =>
    rw [hb] at hfa
    by_cases hm : itemMatches it n
    · simp [hm] at hfa
      exact hfa ▸ (byId_mem _ _ _ _ hb).1
    · simp [hm] at hfa

theorem findCharacterInRoom_mem (c : Content) (st : GameState) (n : String) (ch : Character)
    (h : findCharacterInRoom c st n = some ch) : ch ∈ c.characters := by
  unfold findCharacterInRoom at h
  cases hr : getCurrentRoomObj c st with
  | none => rw [hr] at h; simp at h
  | some room =>
    rw [hr] at h
    obtain ⟨a, _, hfa⟩ := List.exists_of_findSome?_eq_some h
    cases hb : byId Character.id c.characters a with
    | none => rw [hb] at hfa; simp at hfa
    | some x =>
      rw [hb] at hfa
      by_cases hm : characterMatches x n
      · simp [hm] at hfa
        exact hfa ▸ (byId_mem _ _ _ _ hb).1
      · simp [hm] at hfa

/-!
## How each operation can change the flag store

Every flag write in the engine is `setFlag(name, true)` with `name` drawn
from a content field, so along any command the value of a given flag either
stays what it was or becomes `true`, and in the latter case the content
declares that flag in a use-action, an on-take event, or a dialogue node.
-/

theorem processEvent_flags_base (ev : Event) (st : GameState) :
    (processEvent ev st).1.flags =
    (match truthyStr ev.setFlag with
     | some fl => setFlag st fl true
     | none => st).flags := by
  unfold processEvent
  repeat' split
  all_goals simp [flags_addItem]

theorem executeUseAction_flags_base (c : Content) (item : Item) (action : UseAction)
    (st : GameState) :
    (executeUseAction c item action st).1.flags =
    (match truthyStr action.setFlag with
     | some fl => setFlag st fl true
     | none => st).flags := by
  unfold executeUseAction
  repeat' split
  all_goals simp [flags_addItem, flags_removeItem, flags_setItemLocation]

theorem displayDialogueNode_flags_base (c : Content) (ch : Character) (node : DialogueNode)
    (st : GameState) :
    (displayDialogueNode c ch node st).1.flags =
    (match truthyStr node.setFlag with
     | some fl => setFlag st fl true
     | none => st).flags := by
  unfold displayDialogueNode
  repeat' split
  all_goals simp [flags_addItem, flags_setDialogueState]

/-- Common step from a `flags`-characterization to the pointwise flag
disjunction: the flag either keeps its value or was set to `true` under the
name recorded in `setFlagField`. -/
theorem flag_disjunction_of_base {result st : GameState} {setFlagField : Option String}
    (hbase : result.flags =
      (match truthyStr setFlagField with
       | some fl => setFlag st fl true
       | none => st).flags)
    (f : String) :
    getFlag result f = getFlag st f ∨
    (getFlag result f = true ∧ truthyStr setFlagField = some f) := by
  cases hset : truthyStr setFlagField with
  | none =>
    rw [hset] at hbase
    exact Or.inl (getFlag_eq_of_flags_eq hbase f)
  | some fl =>
    rw [hset] at hbase
    by_cases hf : f = fl
    · subst hf
      refine Or.inr ⟨?_, rfl⟩
      rw [getFlag_eq_of_flags_eq hbase f]
      exact getFlag_setFlag_self st f true
    · refine Or.inl ?_
      rw [getFlag_eq_of_flags_eq hbase f]
      exact getFlag_setFlag_ne st fl f true hf

theorem processEvent_flags (ev : Event) (st : GameState) (f : String) :
    getFlag (processEvent ev st).1 f = getFlag st f ∨
    (getFlag (processEvent ev st).1 f = true ∧ truthyStr ev.setFlag = some f) :=
  flag_disjunction_of_base (processEvent_flags_base ev st) f

theorem executeUseAction_flags (c : Content) (item : Item) (action : UseAction)
    (st : GameState) (f : String) :
    getFlag (executeUseAction c item action st).1 f = getFlag st f ∨
    (getFlag (executeUseAction c item action st).1 f = true ∧
      truthyStr action.setFlag = some f) :=
  flag_disjunction_of_base (executeUseAction_flags_base c item action st) f

theorem displayDialogueNode_flags (c : Content) (ch : Character) (node : DialogueNode)
    (st : GameState) (f : String) :
    getFlag (displayDialogueNode c ch node st).1 f = getFlag st f ∨
    (getFlag (displayDialogueNode c ch node st).1 f = true ∧
      truthyStr node.setFlag = some f) :=
  flag_disjunction_of_base (displayDialogueNode_flags_base c ch node st) f

/-- Across one engine step, each flag either keeps its value or has been set
to `true` under a name the content declares in a use-action, an on-take
event, or a dialogue node. -/
def FlagStep (c : Content) (st st' : GameState) : Prop :=
  ∀ f, getFlag st' f = getFlag st f ∨ (getFlag st' f = true ∧ contentSetsFlag c f = true)

theorem flagStep_of_flags_eq {c : Content} {st st' : GameState}
    (h : st'.flags = st.flags) : FlagStep c st st' :=
  fun f => Or.inl (getFlag_eq_of_flags_eq h f)

theorem flagStep_refl (c : Content) (st : GameState) : FlagStep c st st :=
  flagStep_of_flags_eq rfl

theorem flagStep_trans {c : Content} {st st1 st2 : GameState}
    (h1 : FlagStep c st st1) (h2 : FlagStep c st1 st2) : FlagStep c st st2 := by
  intro f
  rcases h2 f with e2 | ⟨t2, hc⟩
  · rcases h1 f with e1 | ⟨t1, hc⟩
    · exact Or.inl (e2.trans e1)
    · exact Or.inr ⟨e2.trans t1, hc⟩
  · exact Or.inr ⟨t2, hc⟩

theorem contentSetsFlag_of_useAction {c : Content} {item : Item} {action : UseAction}
    {f : String} (hitem : item ∈ c.items) (haction : action ∈ item.useActions)
    (hset : truthyStr action.setFlag = some f) : contentSetsFlag c f = true := by
  unfold contentSetsFlag
  rw [Bool.or_eq_true, List.any_eq_true]
  exact Or.inl ⟨item, hitem, by rw [Bool.or_eq_true, List.any_eq_true]
                                exact Or.inl ⟨action, haction, by simp [hset]⟩⟩

theorem contentSetsFlag_of_onTake {c : Content} {item : Item} {ev : Event}
    {f : String} (hitem : item ∈ c.items) (hev : item.onTake = some ev)
    (hset : truthyStr ev.setFlag = some f) : contentSetsFlag c f = true := by
  unfold contentSetsFlag
  rw [Bool.or_eq_true, List.any_eq_true]
  exact Or.inl ⟨item, hitem, by rw [Bool.or_eq_true]
                                exact Or.inr (by simp [hev, hset])⟩

theorem contentSetsFlag_of_dialogue {c : Content} {ch : Character} {node : DialogueNode}
    {f : String} (hch : ch ∈ c.characters) (hnode : node ∈ ch.dialogue)
    (hset : truthyStr node.setFlag = some f) : contentSetsFlag c f = true := by
  unfold contentSetsFlag
  rw [Bool.or_eq_true]
  refine Or.inr ?_
  rw [List.any_eq_true]
  exact ⟨ch, hch, by rw [List.any_eq_true]; exact ⟨node, hnode, by simp [hset]⟩⟩

theorem handleExamine_state (c : Content) (noun : Option String) (st : GameState) :
    (handleExamine c noun st).1 = st := by
  unfold handleExamine
  repeat' (first | split | dsimp only)

theorem handleInventory_state (c : Content) (st : GameState) :
    (handleInventory c st).1 = st := by
  unfold handleInventory
  split
  all_goals rfl

theorem handleHelp_state (st : GameState) : (handleHelp st).1 = st := rfl

theorem handleQuit_state (st : GameState) : (handleQuit st).1 = st := rfl

theorem flags_performMove (c : Content) (st : GameState) (d t : String) :
    (performMove c st d t).1.flags = st.flags := by
  unfold performMove
  repeat' split
  all_goals simp [flags_markRoomVisited]

theorem flags_handleGo (c : Content) (noun : Option String) (st : GameState) :
    (handleGo c noun st).1.flags = st.flags := by
  unfold handleGo
  repeat' (first | split | dsimp only)
  all_goals simp [flags_performMove]

theorem flags_handleDrop (c : Content) (noun : Option String) (st : GameState) :
    (handleDrop c noun st).1.flags = st.flags := by
  unfold handleDrop
  repeat' (first | split | dsimp only)
  all_goals simp [flags_setItemLocation, flags_removeItem]

theorem flags_handleLook (c : Content) (noun : Option String) (st : GameState) :
    (handleLook c noun st).1.flags = st.flags := by
  unfold handleLook
  repeat' (first | split | dsimp only)
  all_goals simp [flags_markRoomVisited, handleExamine_state]

theorem handleTake_flags (c : Content) (noun : Option String) (st : GameState) :
    FlagStep c st (handleTake c noun st).1 := by
  unfold handleTake
  cases hno : truthyStr noun with
  | none => exact flagStep_refl c st
  | some n =>
    dsimp only
    cases hroom : findItemInRoom c st (toLowerStr n) with
    | none =>
      cases hinv : findItemInInventory c st (toLowerStr n) with
      | some inInv => exact flagStep_refl c st
      | none => exact flagStep_refl c st
    | some item =>
      dsimp only
      by_cases htk : item.takeable = false
      · simp only [htk, if_true]
        exact flagStep_refl c st
      · simp only [htk, if_false]
        cases hot : item.onTake with
        | none =>
          exact flagStep_of_flags_eq (flags_addItem st item.id)
        | some ev =>
          dsimp only
          refine flagStep_trans
            (flagStep_of_flags_eq (flags_addItem st item.id)) ?_
          intro f
          rcases processEvent_flags ev (addItem st item.id) f with h | ⟨ht, hs⟩
          · exact Or.inl h
          · exact Or.inr ⟨ht, contentSetsFlag_of_onTake
              (findItemInRoom_mem c st (toLowerStr n) item hroom) hot hs⟩

theorem handleUse_flags (c : Content) (noun target : Option String) (st : GameState) :
    FlagStep c st (handleUse c noun target st).1 := by
  unfold handleUse
  cases hno : truthyStr noun with
  | none => exact flagStep_refl c st
  | some n =>
    dsimp only
    cases hinv : findItemInInventory c st (toLowerStr n) with
    | none =>
      cases hroom : findItemInRoom c st (toLowerStr n) with
      | some roomItem => exact flagStep_refl c st
      | none => exact flagStep_refl c st
    | some item =>
      dsimp only
      by_cases hempty : item.useActions.isEmpty
      · simp only [hempty, if_true]
        exact flagStep_refl c st
      · simp only [hempty, if_false]
        cases htg : truthyStr target with
        | none =>
          dsimp only
          cases hfind : item.useActions.find? (fun action => (truthyStr action.target).isNone) with
          | none => exact flagStep_refl c st
          | some defaultAction =>
            intro f
            rcases executeUseAction_flags c item defaultAction st f with h | ⟨ht, hs⟩
            · exact Or.inl h
            · exact Or.inr ⟨ht, contentSetsFlag_of_useAction
                (findItemInInventory_mem c st (toLowerStr n) item hinv)
                (List.mem_of_find?_eq_some hfind) hs⟩
        | some tgt =>
          dsimp only
          cases hfind : item.useActions.find? (useActionMatchesTarget c (toLowerStr tgt)) with
          | none => exact flagStep_refl c st
          | some matchingAction =>
            intro f
            rcases executeUseAction_flags c item matchingAction st f with h | ⟨ht, hs⟩
            · exact Or.inl h
            · exact Or.inr ⟨ht, contentSetsFlag_of_useAction
                (findItemInInventory_mem c st (toLowerStr n) item hinv)
                (List.mem_of_find?_eq_some hfind) hs⟩

theorem runDialogue_flags (c : Content) (ch : Character) (st : GameState)
    (hch : ch ∈ c.characters) : FlagStep c st (runDialogue c ch st).1 := by
  unfold runDialogue
  cases hd : ch.dialogue with
  | nil => exact flagStep_refl c st
  | cons firstNode rest =>
    dsimp only
    cases hfind : (firstNode :: rest).find? (fun n => n.id =
        (match truthyStr (alGet st.characterDialogueState ch.id) with
         | some saved => saved
         | none => firstNode.id)) with
    | none =>
      dsimp only
      intro f
      rcases displayDialogueNode_flags c ch firstNode st f with h | ⟨ht, hs⟩
      · exact Or.inl h
      · exact Or.inr ⟨ht, contentSetsFlag_of_dialogue hch
          (by rw [hd]; exact List.mem_cons_self _ _) hs⟩
    | some node =>
      dsimp only
      intro f
      rcases displayDialogueNode_flags c ch node st f with h | ⟨ht, hs⟩
      · exact Or.inl h
      · exact Or.inr ⟨ht, contentSetsFlag_of_dialogue hch
          (by rw [hd]; exact List.mem_of_find?_eq_some hfind) hs⟩

theorem handleTalk_flags (c : Content) (noun : Option String) (st : GameState) :
    FlagStep c st (handleTalk c noun st).1 := by
  unfold handleTalk
  cases hno : truthyStr noun with
  | none =>
    cases hr : getCurrentRoomObj c st with
    | none => exact flagStep_refl c st
    | some room =>
      dsimp only
      split
      · exact flagStep_refl c st
      · exact flagStep_refl c st
  | some n =>
    dsimp only
    cases hfind : findCharacterInRoom c st (toLowerStr n) with
    | none => exact flagStep_refl c st
    | some ch =>
      exact runDialogue_flags c ch st (findCharacterInRoom_mem c st (toLowerStr n) ch hfind)

theorem execute_flags (c : Content) (cmd : Command) (st : GameState) :
    FlagStep c st (execute c cmd st).1 := by
  unfold execute
  by_cases h1 : cmd.verb = ""
  · rw [if_pos h1]; exact flagStep_refl c st
  rw [if_neg h1]
  by_cases h2 : isDirection cmd.verb = true
  · rw [if_pos h2]
    exact flagStep_of_flags_eq (flags_handleGo c _ st)
  rw [if_neg h2]
  by_cases h3 : cmd.verb = "look" ∨ cmd.verb = "l"
  · rw [if_pos h3]
    exact flagStep_of_flags_eq (flags_handleLook c _ st)
  rw [if_neg h3]
  by_cases h4 : cmd.verb = "go" ∨ cmd.verb = "walk" ∨ cmd.verb = "move"
  · rw [if_pos h4]
    exact flagStep_of_flags_eq (flags_handleGo c _ st)
  rw [if_neg h4]
  by_cases h5 : cmd.verb = "examine" ∨ cmd.verb = "x" ∨ cmd.verb = "inspect"
  · rw [if_pos h5]
    exact flagStep_of_flags_eq (by rw [handleExamine_state])
  rw [if_neg h5]
  by_cases h6 : cmd.verb = "take" ∨ cmd.verb = "get" ∨ cmd.verb = "grab" ∨ cmd.verb = "pickup"
  · rw [if_pos h6]
    exact handleTake_flags c cmd.noun st
  rw [if_neg h6]
  by_cases h7 : cmd.verb = "drop" ∨ cmd.verb = "put" ∨ cmd.verb = "discard"
  · rw [if_pos h7]
    exact flagStep_of_flags_eq (flags_handleDrop c _ st)
  rw [if_neg h7]
  by_cases h8 : cmd.verb = "inventory" ∨ cmd.verb = "i" ∨ cmd.verb = "inv"
  · rw [if_pos h8]
    exact flagStep_of_flags_eq (by rw [handleInventory_state])
  rw [if_neg h8]
  by_cases h9 : cmd.verb = "talk" ∨ cmd.verb = "speak" ∨ cmd.verb = "chat"
  · rw [if_pos h9]
    exact handleTalk_flags c cmd.noun st
  rw [if_neg h9]
  by_cases h10 : cmd.verb = "use" ∨ cmd.verb = "activate"
  · rw [if_pos h10]
    exact handleUse_flags c cmd.noun cmd.target st
  rw [if_neg h10]
  by_cases h11 : cmd.verb = "help" ∨ cmd.verb = "?"
  · rw [if_pos h11]
    exact flagStep_of_flags_eq (by rw [handleHelp_state])
  rw [if_neg h11]
  by_cases h12 : cmd.verb = "quit" ∨ cmd.verb = "exit"
  · rw [if_pos h12]
    exact flagStep_of_flags_eq (by rw [handleQuit_state])
  rw [if_neg h12]
  exact flagStep_refl c st

theorem execute_gameCompleted_stable (c : Content) (cmd : Command) (st : GameState)
    (hc : contentSetsFlag c ("gameCompleted") = false) :
    getFlag (execute c cmd st).1 ("gameCompleted") = getFlag st ("gameCompleted") := by
  rcases execute_flags c cmd st ("gameCompleted") with h | ⟨_, hcs⟩
  · exact h
  · rw [hcs] at hc
    cases hc

/-- The one-time victory line (`main.js`, `checkGameCompletion`). -/
def victoryNarration (cfg : Config) : Narration :=
  Narration.success ("\n"
    ++ strOr cfg.victoryText ("Congratulations! You have completed all objectives!") ++ "\n")

theorem checkGameCompletion_completed (cfg : Config) (st : GameState)
    (h : getFlag st ("gameCompleted") = true) :
    checkGameCompletion cfg st = (st, []) := by
  simp [checkGameCompletion, h]

theorem checkGameCompletion_fire (cfg : Config) (st : GameState)
    (h0 : getFlag st ("gameCompleted") = false)
    (hall : allObjectivesComplete cfg st = true) :
    checkGameCompletion cfg st = (setFlag st ("gameCompleted") true, [victoryNarration cfg]) := by
  unfold allObjectivesComplete at hall
  cases ho : cfg.objectives with
  | none => rw [ho] at hall; cases hall
  | some objectives =>
    rw [ho] at hall
    dsimp only at hall
    unfold checkGameCompletion
    rw [ho]
    rw [if_neg (by simp [h0])]
    dsimp only
    rw [if_pos hall]
    rfl

theorem checkGameCompletion_nofire (cfg : Config) (st : GameState)
    (h0 : getFlag st ("gameCompleted") = false)
    (hall : allObjectivesComplete cfg st = false) :
    checkGameCompletion cfg st = (st, []) := by
  unfold allObjectivesComplete at hall
  cases ho : cfg.objectives with
  | none => simp [checkGameCompletion, h0, ho]
  | some objectives =>
    rw [ho] at hall
    dsimp only at hall
    unfold checkGameCompletion
    rw [ho]
    rw [if_neg (by simp [h0])]
    dsimp only
    rw [if_neg (by simp [hall])]

theorem stateAfter_take_succ (cfg : Config) (c : Content)
    (syn dir : List (String × String)) (st0 : GameState) (inputs : List String)
    (i : Nat) (hi : i < inputs.length) :
    stateAfter cfg c syn dir st0 (inputs.take (i + 1)) =
    (stepCommand cfg c syn dir (stateAfter cfg c syn dir st0 (inputs.take i))
      (inputs.getD i "")).1 := by
  unfold stateAfter
  rw [List.take_succ]
  have hsome : inputs[i]? = some (inputs.getD i "") := by
    rw [List.getElem?_eq_getElem hi]
    rw [List.getD_eq_getElem _ _ hi]
  rw [hsome]
  simp

theorem engineStateAt_eq (cfg : Config) (c : Content)
    (syn dir : List (String × String)) (st0 : GameState) (inputs : List String) (i : Nat) :
    engineStateAt cfg c syn dir st0 inputs i =
    (execute c (parse syn dir (inputs.getD i ""))
      (stateAfter cfg c syn dir st0 (inputs.take i))).1 := rfl

theorem gameCompleted_characterization (cfg : Config) (c : Content)
    (syn dir : List (String × String)) (st0 : GameState) (inputs : List String)
    (hc : contentSetsFlag c ("gameCompleted") = false)
    (h0 : getFlag st0 ("gameCompleted") = false) :
    ∀ i, i ≤ inputs.length →
      (getFlag (stateAfter cfg c syn dir st0 (inputs.take i)) ("gameCompleted") = true
        ↔ ∃ j, j < i ∧
            allObjectivesComplete cfg (engineStateAt cfg c syn dir st0 inputs j) = true) := by
  intro i
  induction i with
  | zero =>
    intro _
    simp [stateAfter, h0]
  | succ i ih =>
    intro hle
    have hi : i < inputs.length := Nat.lt_of_succ_le hle
    have ihi := ih (Nat.le_of_lt hi)
    rw [stateAfter_take_succ cfg c syn dir st0 inputs i hi]
    have hengine : getFlag (engineStateAt cfg c syn dir st0 inputs i) ("gameCompleted") =
        getFlag (stateAfter cfg c syn dir st0 (inputs.take i)) ("gameCompleted") :=
      execute_gameCompleted_stable c _ _ hc
    have hstep : (stepCommand cfg c syn dir (stateAfter cfg c syn dir st0 (inputs.take i))
        (inputs.getD i "")).1 =
        (checkGameCompletion cfg (engineStateAt cfg c syn dir st0 inputs i)).1 := rfl
    rw [hstep]
    by_cases hprev : getFlag (stateAfter cfg c syn dir st0 (inputs.take i)) ("gameCompleted") = true
    · have hfired : getFlag (engineStateAt cfg c syn dir st0 inputs i) ("gameCompleted") = true := by
        rw [hengine]; exact hprev
      rw [checkGameCompletion_completed cfg _ hfired]
      constructor
      · intro _
        obtain ⟨j, hj, hPj⟩ := ihi.mp hprev
        exact ⟨j, Nat.lt_succ_of_lt hj, hPj⟩
      · intro _
        exact hfired
    · have hprev' : getFlag (stateAfter cfg c syn dir st0 (inputs.take i)) ("gameCompleted") = false :=
        Bool.eq_false_iff.mpr hprev
      have hfalse : getFlag (engineStateAt cfg c syn dir st0 inputs i) ("gameCompleted") = false := by
        rw [hengine]; exact hprev'
      by_cases hP : allObjectivesComplete cfg (engineStateAt cfg c syn dir st0 inputs i) = true
      · rw [checkGameCompletion_fire cfg _ hfalse hP]
        constructor
        · intro _
          exact ⟨i, Nat.lt_succ_self i, hP⟩
        · intro _
          exact getFlag_setFlag_self _ _ _
      · have hP' : allObjectivesComplete cfg (engineStateAt cfg c syn dir st0 inputs i) = false :=
          Bool.eq_false_iff.mpr hP
        rw [checkGameCompletion_nofire cfg _ hfalse hP']
        constructor
        · intro habs
          rw [hfalse] at habs
          cases habs
        · intro ⟨j, hj, hPj⟩
          rcases Nat.lt_succ_iff_lt_or_eq.mp hj with hj' | hj'
          · exact absurd (ihi.mpr ⟨j, hj', hPj⟩) (by simp [hprev'])
          · subst hj'
            exact absurd hPj hP

/-- C5: over any session, the completion check emits its victory narration
exactly on the first turn whose engine execution leaves every configured
objective flag truthy (and records `gameCompleted` then), and emits nothing
on every other turn — in particular zero victory narrations on every turn
after the firing one. -/
theorem victory_narration_once (cfg : Config) (c : Content)
    (syn dir : List (String × String)) (st0 : GameState) (inputs : List String)
    (hc : contentSetsFlag c ("gameCompleted") = false)
    (h0 : getFlag st0 ("gameCompleted") = false)
    (i : Nat) (hi : i < inputs.length) :
    (victoryNarrAt cfg c syn dir st0 inputs i ≠ [] ↔
      (allObjectivesComplete cfg (engineStateAt cfg c syn dir st0 inputs i) = true ∧
        ∀ j, j < i →
          allObjectivesComplete cfg (engineStateAt cfg c syn dir st0 inputs j) = false))
    ∧ (victoryNarrAt cfg c syn dir st0 inputs i ≠ [] →
        victoryNarrAt cfg c syn dir st0 inputs i = [victoryNarration cfg] ∧
        getFlag (stateAfter cfg c syn dir st0 (inputs.take (i + 1))) ("gameCompleted") = true)
    ∧ (allObjectivesComplete cfg (engineStateAt cfg c syn dir st0 inputs i) = true →
        ∀ k, i < k → k < inputs.length →
          victoryNarrAt cfg c syn dir st0 inputs k = []) := by
  have hchar := gameCompleted_characterization cfg c syn dir st0 inputs hc h0
  have hstable : ∀ j, getFlag (engineStateAt cfg c syn dir st0 inputs j) ("gameCompleted")
      = getFlag (stateAfter cfg c syn dir st0 (inputs.take j)) ("gameCompleted") :=
    fun j => execute_gameCompleted_stable c _ _ hc
  have hc3 : allObjectivesComplete cfg (engineStateAt cfg c syn dir st0 inputs i) = true →
      ∀ k, i < k → k < inputs.length → victoryNarrAt cfg c syn dir st0 inputs k = [] := by
    intro hPi k hik hk
    have hgck : getFlag (engineStateAt cfg c syn dir st0 inputs k) ("gameCompleted") = true := by
      rw [hstable k]
      exact (hchar k (Nat.le_of_lt hk)).mpr ⟨i, hik, hPi⟩
    show (checkGameCompletion cfg _).2 = _
    rw [checkGameCompletion_completed cfg _ hgck]
  by_cases hprev : ∃ j, j < i ∧
      allObjectivesComplete cfg (engineStateAt cfg c syn dir st0 inputs j) = true
  · have hgc : getFlag (engineStateAt cfg c syn dir st0 inputs i) ("gameCompleted") = true := by
      rw [hstable i]
      exact (hchar i (Nat.le_of_lt hi)).mpr hprev
    have hnarr : victoryNarrAt cfg c syn dir st0 inputs i = [] := by
      show (checkGameCompletion cfg _).2 = _
      rw [checkGameCompletion_completed cfg _ hgc]
    refine ⟨?_, ?_, hc3⟩
    · rw [hnarr]
      constructor
      · intro h
        exact absurd rfl h
      · rintro ⟨_, hall⟩
        obtain ⟨j, hj, hPj⟩ := hprev
        rw [hall j hj] at hPj
        cases hPj
    · intro h
      exact absurd hnarr h
  · have hgcfalse : getFlag (engineStateAt cfg c syn dir st0 inputs i) ("gameCompleted") = false := by
      rw [hstable i]
      rcases Bool.eq_false_or_eq_true
        (getFlag (stateAfter cfg c syn dir st0 (inputs.take i)) ("gameCompleted")) with h | h
      · exact absurd ((hchar i (Nat.le_of_lt hi)).mp h) hprev
      · exact h
    have hallj : ∀ j, j < i →
        allObjectivesComplete cfg (engineStateAt cfg c syn dir st0 inputs j) = false := by
      intro j hj
      rcases Bool.eq_false_or_eq_true
        (allObjectivesComplete cfg (engineStateAt cfg c syn dir st0 inputs j)) with h | h
      · exact absurd ⟨j, hj, h⟩ hprev
      · exact h
    by_cases hP : allObjectivesComplete cfg (engineStateAt cfg c syn dir st0 inputs i) = true
    · have hnarr : victoryNarrAt cfg c syn dir st0 inputs i = [victoryNarration cfg] := by
        show (checkGameCompletion cfg _).2 = _
        rw [checkGameCompletion_fire cfg _ hgcfalse hP]
      refine ⟨?_, ?_, hc3⟩
      · rw [hnarr]
        constructor
        · intro _
          exact ⟨hP, hallj⟩
        · intro _
          simp
      · intro _
        refine ⟨hnarr, ?_⟩
        rw [stateAfter_take_succ cfg c syn dir st0 inputs i hi]
        have hstep : (stepCommand cfg c syn dir
            (stateAfter cfg c syn dir st0 (inputs.take i)) (inputs.getD i "")).1 =
            (checkGameCompletion cfg (engineStateAt cfg c syn dir st0 inputs i)).1 := rfl
        rw [hstep, checkGameCompletion_fire cfg _ hgcfalse hP]
        exact getFlag_setFlag_self _ _ _
    · have hP' : allObjectivesComplete cfg (engineStateAt cfg c syn dir st0 inputs i) = false :=
        Bool.eq_false_iff.mpr hP
      have hnarr : victoryNarrAt cfg c syn dir st0 inputs i = [] := by
        show (checkGameCompletion cfg _).2 = _
        rw [checkGameCompletion_nofire cfg _ hgcfalse hP']
      refine ⟨?_, ?_, hc3⟩
      · rw [hnarr]
        constructor
        · intro h
          exact absurd rfl h
        · rintro ⟨hPi, _⟩
          exact absurd hPi hP
      · intro h
        exact absurd hnarr h

/-!
## The inventory/location coincidence invariant (C9)
-/

/-- The C9 invariant, strengthened with the two facts that make it
inductive: the inventory never holds duplicates (guaranteed by `addItem`),
and the current room id is never the reserved location word `"inventory"`
(so a drop cannot fake an inventory location). -/
def InvGood (st : GameState) : Prop :=
  st.inventory.Nodup ∧
  (∀ itemId, itemId ∈ st.inventory ↔ alGet st.itemLocations itemId = some ("inventory")) ∧
  st.currentRoomId ≠ "inventory"

/-- Content whose room ids avoid the reserved location word. -/
def RoomIdsOk (c : Content) : Prop :=
  ∀ r ∈ c.rooms, r.id ≠ "inventory"

theorem invGood_of_parts {st st' : GameState} (hinv : st'.inventory = st.inventory)
    (hloc : st'.itemLocations = st.itemLocations)
    (hcur : st'.currentRoomId = st.currentRoomId) (h : InvGood st) : InvGood st' := by
  obtain ⟨hnd, hiff, hc⟩ := h
  exact ⟨hinv ▸ hnd, fun itemId => by rw [hinv, hloc]; exact hiff itemId, hcur ▸ hc⟩

theorem invGood_setFlag {st : GameState} (f : String) (v : Bool) (h : InvGood st) :
    InvGood (setFlag st f v) :=
  invGood_of_parts rfl rfl rfl h

theorem invGood_markRoomVisited {st : GameState} (r : String) (h : InvGood st) :
    InvGood (markRoomVisited st r) := by
  refine invGood_of_parts ?_ ?_ ?_ h <;> (unfold markRoomVisited; split <;> rfl)

theorem invGood_setDialogueState {st : GameState} (a b : String) (h : InvGood st) :
    InvGood (setDialogueState st a b) :=
  invGood_of_parts rfl rfl rfl h

theorem invGood_addItem {st : GameState} (i : String) (h : InvGood st) :
    InvGood (addItem st i) := by
  obtain ⟨hnd, hiff, hcur⟩ := h
  unfold addItem
  by_cases hmem : st.inventory.contains i
  · rw [if_pos hmem]
    exact ⟨hnd, hiff, hcur⟩
  · rw [if_neg hmem]
    have hnotmem : i ∉ st.inventory := by simpa using hmem
    refine ⟨?_, ?_, hcur⟩
    · simp [List.nodup_append, hnd, hnotmem]
    · intro itemId
      by_cases hid : itemId = i
      · subst hid
        simp [alGet_alSet_self]
      · simp only [List.mem_append, List.mem_singleton, hid, or_false]
        rw [alGet_alSet_ne _ _ _ _ hid]
        exact hiff itemId

theorem invGood_removeRelocate {st : GameState} (i l : String) (hl : l ≠ "inventory")
    (h : InvGood st) : InvGood (setItemLocation (removeItem st i) i l) := by
  obtain ⟨hnd, hiff, hcur⟩ := h
  refine ⟨?_, ?_, hcur⟩
  · exact hnd.erase i
  · intro itemId
    show itemId ∈ st.inventory.erase i ↔
      alGet (alSet st.itemLocations i l) itemId = some ("inventory")
    by_cases hid : itemId = i
    · subst hid
      rw [alGet_alSet_self]
      constructor
      · intro hmem
        exact absurd ((hnd.mem_erase_iff).mp hmem).1 (by simp)
      · intro hsome
        exact absurd (Option.some.inj hsome) hl
    · rw [alGet_alSet_ne _ _ _ _ hid]
      rw [List.mem_erase_of_ne hid]
      exact hiff itemId

theorem invGood_processEvent {st : GameState} (ev : Event) (h : InvGood st) :
    InvGood (processEvent ev st).1 := by
  unfold processEvent
  cases truthyStr ev.setFlag <;> cases truthyStr ev.giveItem <;> dsimp only
  · exact h
  · exact invGood_addItem _ h
  · exact invGood_setFlag _ _ h
  · exact invGood_addItem _ (invGood_setFlag _ _ h)

theorem invGood_executeUseAction {st : GameState} (c : Content) (item : Item)
    (action : UseAction) (h : InvGood st) : InvGood (executeUseAction c item action st).1 := by
  have hnowhere : ("nowhere" : String) ≠ "inventory" := by decide
  unfold executeUseAction
  cases truthyStr action.setFlag <;> cases truthyStr action.giveItem <;> dsimp only
  case' none.some g => cases byId Item.id c.items g <;> dsimp only
  case' some.some f g => cases byId Item.id c.items g <;> dsimp only
  all_goals cases hc : action.consume <;> (try dsimp only) <;>
    first
      | exact h
      | exact invGood_removeRelocate _ _ hnowhere h
      | exact invGood_addItem _ h
      | exact invGood_removeRelocate _ _ hnowhere (invGood_addItem _ h)
      | exact invGood_setFlag _ _ h
      | exact invGood_removeRelocate _ _ hnowhere (invGood_setFlag _ _ h)
      | exact invGood_addItem _ (invGood_setFlag _ _ h)
      | exact invGood_removeRelocate _ _ hnowhere (invGood_addItem _ (invGood_setFlag _ _ h))

theorem invGood_displayDialogueNode {st : GameState} (c : Content) (ch : Character)
    (node : DialogueNode) (h : InvGood st) : InvGood (displayDialogueNode c ch node st).1 := by
  unfold displayDialogueNode
  cases truthyStr node.setFlag <;> cases truthyStr node.giveItem <;> dsimp only
  case' none.some g => cases byId Item.id c.items g <;> dsimp only
  case' some.some f g => cases byId Item.id c.items g <;> dsimp only
  all_goals cases truthyStr node.nextNode <;> (try dsimp only) <;>
    (try cases truthyStr node.loop) <;> (try dsimp only) <;>
    first
      | exact h
      | exact invGood_setDialogueState _ _ h
      | exact invGood_addItem _ h
      | exact invGood_setDialogueState _ _ (invGood_addItem _ h)
      | exact invGood_setFlag _ _ h
      | exact invGood_setDialogueState _ _ (invGood_setFlag _ _ h)
      | exact invGood_addItem _ (invGood_setFlag _ _ h)
      | exact invGood_setDialogueState _ _ (invGood_addItem _ (invGood_setFlag _ _ h))

theorem invGood_runDialogue {st : GameState} (c : Content) (ch : Character)
    (h : InvGood st) : InvGood (runDialogue c ch st).1 := by
  unfold runDialogue
  cases ch.dialogue with
  | nil => exact h
  | cons firstNode rest =>
    dsimp only
    cases (firstNode :: rest).find? (fun n => n.id =
        (match truthyStr (alGet st.characterDialogueState ch.id) with
         | some saved => saved
         | none => firstNode.id)) <;> dsimp only
    · exact invGood_displayDialogueNode c ch firstNode h
    · exact invGood_displayDialogueNode c ch _ h

theorem invGood_handleTake {st : GameState} (c : Content) (noun : Option String)
    (h : InvGood st) : InvGood (handleTake c noun st).1 := by
  unfold handleTake
  cases truthyStr noun with
  | none => exact h
  | some n =>
    dsimp only
    cases findItemInRoom c st (toLowerStr n) with
    | none =>
      cases findItemInInventory c st (toLowerStr n) <;> exact h
    | some item =>
      dsimp only
      split
      · exact h
      · cases item.onTake <;> dsimp only
        · exact invGood_addItem _ h
        · exact invGood_processEvent _ (invGood_addItem _ h)

theorem invGood_handleDrop {st : GameState} (c : Content) (noun : Option String)
    (h : InvGood st) : InvGood (handleDrop c noun st).1 := by
  unfold handleDrop
  cases truthyStr noun with
  | none => exact h
  | some n =>
    dsimp only
    cases findItemInInventory c st (toLowerStr n) with
    | none => exact h
    | some item =>
      exact invGood_removeRelocate _ _ h.2.2 h

theorem invGood_handleUse {st : GameState} (c : Content) (noun target : Option String)
    (h : InvGood st) : InvGood (handleUse c noun target st).1 := by
  unfold handleUse
  cases truthyStr noun with
  | none => exact h
  | some n =>
    dsimp only
    cases findItemInInventory c st (toLowerStr n) with
    | none => cases findItemInRoom c st (toLowerStr n) <;> exact h
    | some item =>
      dsimp only
      split
      · exact h
      · cases truthyStr target <;> dsimp only
        · cases item.useActions.find? (fun action => (truthyStr action.target).isNone) <;>
            dsimp only
          · exact h
          · exact invGood_executeUseAction c item _ h
        · cases item.useActions.find? (useActionMatchesTarget c _) <;> dsimp only
          · exact h
          · exact invGood_executeUseAction c item _ h

theorem invGood_handleTalk {st : GameState} (c : Content) (noun : Option String)
    (h : InvGood st) : InvGood (handleTalk c noun st).1 := by
  unfold handleTalk
  cases truthyStr noun with
  | none =>
    cases getCurrentRoomObj c st <;> dsimp only
    · exact h
    · split <;> exact h
  | some n =>
    dsimp only
    cases findCharacterInRoom c st (toLowerStr n) with
    | none => exact h
    | some ch => exact invGood_runDialogue c ch h

theorem invGood_performMove {st : GameState} (c : Content) (d t : String)
    (hrooms : RoomIdsOk c) (h : InvGood st) : InvGood (performMove c st d t).1 := by
  unfold performMove
  cases hb : byId Room.id c.rooms t with
  | none => exact h
  | some targetRoom =>
    dsimp only
    obtain ⟨hmem, hid⟩ := byId_mem _ _ _ _ hb
    have ht : t ≠ "inventory" := hid ▸ hrooms targetRoom hmem
    refine invGood_markRoomVisited _ ⟨h.1, h.2.1, ht⟩

theorem invGood_handleGo {st : GameState} (c : Content) (noun : Option String)
    (hrooms : RoomIdsOk c) (h : InvGood st) : InvGood (handleGo c noun st).1 := by
  unfold handleGo
  cases truthyStr noun with
  | none => exact h
  | some n =>
    dsimp only
    cases getCurrentRoomObj c st with
    | none => exact h
    | some room =>
      dsimp only
      cases truthyStr (alGet room.exits (resolveDirectionSynonymBuiltin (toLowerStr n))) with
      | none => exact h
      | some targetRoomId =>
        dsimp only
        cases alGet room.lockedExits (resolveDirectionSynonymBuiltin (toLowerStr n)) with
        | none => exact invGood_performMove c _ _ hrooms h
        | some lockedInfo =>
          dsimp only
          split
          · exact h
          · exact invGood_performMove c _ _ hrooms h

theorem invGood_handleLook {st : GameState} (c : Content) (noun : Option String)
    (h : InvGood st) : InvGood (handleLook c noun st).1 := by
  unfold handleLook
  cases truthyStr noun with
  | some n =>
    dsimp only
    rw [handleExamine_state]
    exact h
  | none =>
    cases getCurrentRoomObj c st with
    | none => exact h
    | some room => exact invGood_markRoomVisited _ h

theorem invGood_execute {st : GameState} (c : Content) (cmd : Command)
    (hrooms : RoomIdsOk c) (h : InvGood st) : InvGood (execute c cmd st).1 := by
  unfold execute
  by_cases h1 : cmd.verb = ""
  · rw [if_pos h1]; exact h
  rw [if_neg h1]
  by_cases h2 : isDirection cmd.verb = true
  · rw [if_pos h2]; exact invGood_handleGo c _ hrooms h
  rw [if_neg h2]
  by_cases h3 : cmd.verb = "look" ∨ cmd.verb = "l"
  · rw [if_pos h3]; exact invGood_handleLook c _ h
  rw [if_neg h3]
  by_cases h4 : cmd.verb = "go" ∨ cmd.verb = "walk" ∨ cmd.verb = "move"
  · rw [if_pos h4]; exact invGood_handleGo c _ hrooms h
  rw [if_neg h4]
  by_cases h5 : cmd.verb = "examine" ∨ cmd.verb = "x" ∨ cmd.verb = "inspect"
  · rw [if_pos h5]; rw [handleExamine_state]; exact h
  rw [if_neg h5]
  by_cases h6 : cmd.verb = "take" ∨ cmd.verb = "get" ∨ cmd.verb = "grab" ∨ cmd.verb = "pickup"
  · rw [if_pos h6]; exact invGood_handleTake c _ h
  rw [if_neg h6]
  by_cases h7 : cmd.verb = "drop" ∨ cmd.verb = "put" ∨ cmd.verb = "discard"
  · rw [if_pos h7]; exact invGood_handleDrop c _ h
  rw [if_neg h7]
  by_cases h8 : cmd.verb = "inventory" ∨ cmd.verb = "i" ∨ cmd.verb = "inv"
  · rw [if_pos h8]; rw [handleInventory_state]; exact h
  rw [if_neg h8]
  by_cases h9 : cmd.verb = "talk" ∨ cmd.verb = "speak" ∨ cmd.verb = "chat"
  · rw [if_pos h9]; exact invGood_handleTalk c _ h
  rw [if_neg h9]
  by_cases h10 : cmd.verb = "use" ∨ cmd.verb = "activate"
  · rw [if_pos h10]; exact invGood_handleUse c _ _ h
  rw [if_neg h10]
  by_cases h11 : cmd.verb = "help" ∨ cmd.verb = "?"
  · rw [if_pos h11]; exact h
  rw [if_neg h11]
  by_cases h12 : cmd.verb = "quit" ∨ cmd.verb = "exit"
  · rw [if_pos h12]; exact h
  rw [if_neg h12]
  exact h

theorem invGood_checkGameCompletion {st : GameState} (cfg : Config) (h : InvGood st) :
    InvGood (checkGameCompletion cfg st).1 := by
  unfold checkGameCompletion
  split
  · exact h
  · split
    · split
      · exact invGood_setFlag _ _ h
      · exact h
    · exact h

theorem invGood_stateAfter (cfg : Config) (c : Content)
    (syn dir : List (String × String)) (st : GameState) (inputs : List String)
    (hrooms : RoomIdsOk c) (h : InvGood st) :
    InvGood (stateAfter cfg c syn dir st inputs) := by
  induction inputs generalizing st with
  | nil => exact h
  | cons input rest ih =>
    show InvGood (stateAfter cfg c syn dir
      ((stepCommand cfg c syn dir st input).1) rest)
    exact ih _ (invGood_checkGameCompletion cfg (invGood_execute c _ hrooms h))

theorem mem_foldl_alSet_inner (items : List String) (rid : String)
    (m : List (String × String)) (k l : String)
    (h : (k, l) ∈ items.foldl (fun m itemId => alSet m itemId rid) m) :
    (k, l) ∈ m ∨ l = rid := by
  induction items generalizing m with
  | nil => exact Or.inl h
  | cons a rest ih =>
    rw [List.foldl_cons] at h
    rcases ih _ h with h' | h'
    · exact mem_alSet _ _ _ _ _ h'
    · exact Or.inr h'

theorem mem_initializeItemLocations_aux (rooms : List Room) :
    ∀ (m : List (String × String)) (k l : String),
      (k, l) ∈ rooms.foldl
        (fun m room => room.items.foldl (fun m itemId => alSet m itemId room.id) m) m →
      (k, l) ∈ m ∨ ∃ r ∈ rooms, r.id = l := by
  induction rooms with
  | nil => exact fun m k l hm => Or.inl hm
  | cons room rest ih =>
    intro m k l hm
    rw [List.foldl_cons] at hm
    rcases ih _ k l hm with h' | h'
    · rcases mem_foldl_alSet_inner room.items room.id m k l h' with h'' | h''
      · exact Or.inl h''
      · exact Or.inr ⟨room, List.mem_cons_self _ _, h''.symm⟩
    · obtain ⟨r, hr, hrl⟩ := h'
      exact Or.inr ⟨r, List.mem_cons_of_mem _ hr, hrl⟩

theorem mem_initializeItemLocations (rooms : List Room) (k l : String)
    (h : (k, l) ∈ initializeItemLocations rooms) : ∃ r ∈ rooms, r.id = l := by
  unfold initializeItemLocations at h
  rcases mem_initializeItemLocations_aux rooms [] k l h with h' | h'
  · cases h'
  · exact h'

theorem invGood_initState (cfg : Config) (c : Content) (hrooms : RoomIdsOk c)
    (hstart : cfg.startingRoom ≠ "inventory") : InvGood (initState cfg c) := by
  refine ⟨List.nodup_nil, ?_, hstart⟩
  intro itemId
  constructor
  · intro habs
    cases habs
  · intro hsome
    obtain ⟨r, hr, hrl⟩ := mem_initializeItemLocations c.rooms itemId ("inventory")
      (alGet_mem _ _ _ hsome)
    exact absurd hrl (hrooms r hr)

theorem currentRoomId_markRoomVisited (st : GameState) (r : String) :
    (markRoomVisited st r).currentRoomId = st.currentRoomId := by
  unfold markRoomVisited
  split <;> rfl

theorem mem_visited_markRoomVisited (st : GameState) (r : String) :
    r ∈ (markRoomVisited st r).visitedRooms := by
  unfold markRoomVisited
  split
  · next h => simpa using h
  · simp

theorem visited_markRoomVisited_of_mem {st : GameState} {r' : String} (r : String)
    (h : r' ∈ st.visitedRooms) : r' ∈ (markRoomVisited st r).visitedRooms := by
  unfold markRoomVisited
  split
  · exact h
  · simp [h]

theorem find?_first {α : Type} (p : α → Bool) (pre post : List α) (a : α)
    (hpre : ∀ b ∈ pre, p b = false) (ha : p a = true) :
    (pre ++ a :: post).find? p = some a := by
  induction pre with
  | nil => simp [List.find?_cons_of_pos _ ha]
  | cons b rest ih =>
    rw [List.cons_append, List.find?_cons_of_neg]
    · exact ih (fun x hx => hpre x (List.mem_cons_of_mem _ hx))
    · simp [hpre b (List.mem_cons_self _ _)]

theorem mem_addItem_self (st : GameState) (i : String) : i ∈ (addItem st i).inventory := by
  unfold addItem
  split
  · next h => simpa using h
  · simp

theorem mem_addItem_of_mem {st : GameState} {i' : String} (i : String)
    (h : i' ∈ st.inventory) : i' ∈ (addItem st i).inventory := by
  unfold addItem
  split
  · exact h
  · simp [h]

theorem mem_processEvent_of_mem {st : GameState} {i : String} (ev : Event)
    (h : i ∈ st.inventory) : i ∈ (processEvent ev st).1.inventory := by
  unfold processEvent
  cases truthyStr ev.setFlag <;> cases truthyStr ev.giveItem <;> dsimp only
  · exact h
  · exact mem_addItem_of_mem _ h
  · exact h
  · exact mem_addItem_of_mem _ h

/-!
## C1 — locked-exit gating in `handleGo`
-/

/-- C1: when the intended direction of a movement intent has an exit that is
present in the locked-exits table, an unmet unlock condition narrates the
configured lock message (or the generic fallback) and leaves the whole state
unchanged (in particular the current room and the visited set), while a met
condition performs the move with no warning narration; and the unlock
condition itself demands every specified part: the required item in inventory
and the required flag truthy, each part checked independently and skipped
when absent. -/
theorem locked_exit_gating (c : Content) (st : GameState) (noun : Option String)
    (n direction targetRoomId : String) (room targetRoom : Room) (lockedInfo : LockedExit)
    (hn : truthyStr noun = some n)
    (hroom : getCurrentRoomObj c st = some room)
    (hdir : resolveDirectionSynonymBuiltin (toLowerStr n) = direction)
    (hexit : truthyStr (alGet room.exits direction) = some targetRoomId)
    (hlock : alGet room.lockedExits direction = some lockedInfo)
    (htarget : byId Room.id c.rooms targetRoomId = some targetRoom) :
    (checkUnlockCondition st lockedInfo = true ↔
      ((∀ itemReq, truthyStr lockedInfo.requiresItem = some itemReq →
          hasItem st itemReq = true) ∧
       (∀ flagReq, truthyStr lockedInfo.requiresFlag = some flagReq →
          getFlag st flagReq = true)))
    ∧ (checkUnlockCondition st lockedInfo = false →
        handleGo c noun st =
          (st, [Narration.warning (strOr lockedInfo.message
            ("The way " ++ direction ++ " is locked."))]))
    ∧ (checkUnlockCondition st lockedInfo = true →
        (handleGo c noun st).1.currentRoomId = targetRoomId ∧
        targetRoomId ∈ (handleGo c noun st).1.visitedRooms ∧
        (handleGo c noun st).2 =
          [Narration.message ("You go " ++ direction ++ ".\n"),
           displayRoomDescription c { st with currentRoomId := targetRoomId } targetRoom] ∧
        ∀ w, Narration.warning w ∉ (handleGo c noun st).2) := by
  have hgo : handleGo c noun st =
      (if ¬ checkUnlockCondition st lockedInfo then
        (st, [Narration.warning (strOr lockedInfo.message
          ("The way " ++ direction ++ " is locked."))])
      else performMove c st direction targetRoomId) := by
    unfold handleGo
    rw [hn]
    dsimp only
    rw [hroom]
    dsimp only
    rw [hdir, hexit]
    dsimp only
    rw [hlock]
  refine ⟨?_, ?_, ?_⟩
  · unfold checkUnlockCondition
    cases hri : truthyStr lockedInfo.requiresItem <;>
      cases hrf : truthyStr lockedInfo.requiresFlag <;>
      simp
  · intro hcond
    rw [hgo, if_pos (by simp [hcond])]
  · intro hcond
    rw [hgo, if_neg (by simp [hcond])]
    unfold performMove
    rw [htarget]
    dsimp only
    refine ⟨?_, ?_, rfl, ?_⟩
    · exact currentRoomId_markRoomVisited _ _
    · exact mem_visited_markRoomVisited _ _
    · intro w
      simp [displayRoomDescription]

/-!
## C3 — use-action selection in `handleUse`
-/

/-- C3: for a carried item with a non-empty use-action list, a use intent
with no target executes the first use-action in list order without a target
requirement (even when it is declared after targeted ones) and prompts for a
target when every action is targeted; a use intent with a target executes
the first use-action whose configured target matches literally
(case-insensitively) or by entity resolution, and when no action matches,
the neutral "nothing happens" narration is emitted with the state
unchanged. -/
theorem use_action_selection (c : Content) (st : GameState) (noun target : Option String)
    (n : String) (item : Item)
    (hn : truthyStr noun = some n)
    (hinv : findItemInInventory c st (toLowerStr n) = some item)
    (hne : item.useActions ≠ []) :
    (∀ pre a post, truthyStr target = none →
      item.useActions = pre ++ a :: post →
      (∀ b ∈ pre, (truthyStr b.target).isNone = false) →
      (truthyStr a.target).isNone = true →
      handleUse c noun target st = executeUseAction c item a st)
    ∧ (truthyStr target = none →
      (∀ b ∈ item.useActions, (truthyStr b.target).isNone = false) →
      handleUse c noun target st =
        (st, [Narration.error ("Use the " ++ item.name ++ " on what? Try \"use "
          ++ (toLowerStr item.name) ++ " on <target>\".")]))
    ∧ (∀ tgt pre a post, truthyStr target = some tgt →
      item.useActions = pre ++ a :: post →
      (∀ b ∈ pre, useActionMatchesTarget c (toLowerStr tgt) b = false) →
      useActionMatchesTarget c (toLowerStr tgt) a = true →
      handleUse c noun target st = executeUseAction c item a st)
    ∧ (∀ tgt, truthyStr target = some tgt →
      (∀ b ∈ item.useActions, useActionMatchesTarget c (toLowerStr tgt) b = false) →
      handleUse c noun target st =
        (st, [Narration.message ("Nothing happens when you try to use the "
          ++ item.name ++ " on " ++ tgt ++ ".")])) := by
  have hempty : item.useActions.isEmpty = false := by
    cases hcase : item.useActions with
    | nil => exact absurd hcase hne
    | cons a rest => rfl
  have huse : handleUse c noun target st =
      (match truthyStr target with
       | none =>
         match item.useActions.find? (fun action => (truthyStr action.target).isNone) with
         | some defaultAction => executeUseAction c item defaultAction st
         | none =>
           (st, [Narration.error ("Use the " ++ item.name ++ " on what? Try \"use "
             ++ (toLowerStr item.name) ++ " on <target>\".")])
       | some tgt =>
         match item.useActions.find? (useActionMatchesTarget c (toLowerStr tgt)) with
         | some matchingAction => executeUseAction c item matchingAction st
         | none =>
           (st, [Narration.message ("Nothing happens when you try to use the "
             ++ item.name ++ " on " ++ tgt ++ ".")])) := by
    unfold handleUse
    rw [hn]
    dsimp only
    rw [hinv]
    dsimp only
    rw [if_neg (by simp [hempty])]
  refine ⟨?_, ?_, ?_, ?_⟩
  · intro pre a post htgt hsplit hpre ha
    rw [huse, htgt]
    dsimp only
    rw [hsplit, find?_first _ pre post a hpre ha]
  · intro htgt hall
    rw [huse, htgt]
    dsimp only
    rw [List.find?_eq_none.mpr (fun x hx => by simp [hall x hx])]
  · intro tgt pre a post htgt hsplit hpre ha
    rw [huse, htgt]
    dsimp only
    rw [hsplit, find?_first _ pre post a hpre ha]
  · intro tgt htgt hall
    rw [huse, htgt]
    dsimp only
    rw [List.find?_eq_none.mpr (fun x hx => by simp [hall x hx])]

/-!
## C7 — "pick it up first" for a room-visible item in `handleUse`
-/

/-- C7: a use intent whose item resolves in the current room but not in the
inventory yields the distinct "pick it up first" warning naming the item —
not the "not found" error — and changes no state. -/
theorem use_room_item_take_first (c : Content) (st : GameState)
    (noun target : Option String) (n : String) (roomItem : Item)
    (hn : truthyStr noun = some n)
    (hinv : findItemInInventory c st (toLowerStr n) = none)
    (hroom : findItemInRoom c st (toLowerStr n) = some roomItem) :
    handleUse c noun target st =
      (st, [Narration.warning ("You need to pick up the " ++ roomItem.name
        ++ " first. Try \"take " ++ (toLowerStr roomItem.name) ++ "\".")])
    ∧ (handleUse c noun target st).2 ≠
        [Narration.error ("You don't have any \"" ++ n ++ "\".")] := by
  have h : handleUse c noun target st =
      (st, [Narration.warning ("You need to pick up the " ++ roomItem.name
        ++ " first. Try \"take " ++ (toLowerStr roomItem.name) ++ "\".")]) := by
    unfold handleUse
    rw [hn]
    dsimp only
    rw [hinv]
    dsimp only
    rw [hroom]
  refine ⟨h, ?_⟩
  rw [h]
  simp

/-!
## C2 — entity resolution order (amended)
-/

/-- C2 (amended): entity resolution scans the candidate list in list order
and returns the first candidate for which the per-candidate name check — the
disjunction of exact name, exact id, substring containment, and alias match
— succeeds; candidates are not re-ranked by which of the four modes
matched. -/
theorem entity_resolution_first_candidate (c : Content) (st : GameState) (q : String)
    (pre : List String) (xid : String) (post : List String) (x : Item)
    (hinv : st.inventory = pre ++ xid :: post)
    (hx : byId Item.id c.items xid = some x)
    (hmatch : itemMatches x q = true)
    (hpre : ∀ yid ∈ pre, ∀ y, byId Item.id c.items yid = some y →
      itemMatches y q = false) :
    findItemInInventory c st q = some x := by
  unfold findItemInInventory
  rw [hinv, List.findSome?_append]
  have hnone : pre.findSome? (fun itemId =>
      match byId Item.id c.items itemId with
      | some item => if itemMatches item q then some item else none
      | none => none) = none := by
    rw [List.findSome?_eq_none_iff]
    intro yid hyid
    cases hb : byId Item.id c.items yid with
    | none => rfl
    | some y =>
      dsimp only
      rw [if_neg (by simp [hpre yid hyid y hb])]
  rw [hnone]
  rw [List.findSome?_cons]
  rw [hx]
  dsimp only
  rw [if_pos hmatch]
  rfl

/-!
## C4 — terminal dialogue looping
-/

/-- Repeat the dialogue interaction with a character a number of times. -/
def talkRepeatedly (c : Content) (ch : Character) : Nat → GameState → GameState
  | 0, st => st
  | k + 1, st => talkRepeatedly c ch k (runDialogue c ch st).1

theorem dialogue_loop_step (c : Content) (ch : Character) (node : DialogueNode)
    (st : GameState)
    (hne : ch.dialogue ≠ [])
    (hfind : ch.dialogue.find? (fun nd => nd.id = node.id) = some node)
    (hloop : node.loop = some node.id)
    (hid : node.id ≠ "")
    (hnext : truthyStr node.nextNode = none)
    (hstate : alGet st.characterDialogueState ch.id = some node.id) :
    alGet ((runDialogue c ch st).1.characterDialogueState) ch.id = some node.id ∧
    (runDialogue c ch st).2 = [Narration.dialogue ch.name node.text] ++
      (match truthyStr node.giveItem with
       | some gid =>
         match byId Item.id c.items gid with
         | some item => [Narration.success (ch.name ++ " gives you: " ++ item.name)]
         | none => []
       | none => []) := by
  have hrun : runDialogue c ch st = displayDialogueNode c ch node st := by
    unfold runDialogue
    cases hd : ch.dialogue with
    | nil => exact absurd hd hne
    | cons firstNode rest =>
      dsimp only
      rw [hstate]
      have hts : truthyStr (some node.id) = some node.id := by
        simp [truthyStr, hid]
      rw [hts]
      dsimp only
      rw [← hd, hfind]
  rw [hrun]
  unfold displayDialogueNode
  rw [hnext]
  dsimp only
  have hloopts : truthyStr node.loop = some node.id := by
    rw [hloop]
    simp [truthyStr, hid]
  rw [hloopts]
  dsimp only
  cases truthyStr node.setFlag <;> cases hgi : truthyStr node.giveItem <;> dsimp only
  · exact ⟨by simp [setDialogueState, alGet_alSet_self], rfl⟩
  · cases byId Item.id c.items _ <;> dsimp only <;>
      exact ⟨by simp [setDialogueState, alGet_alSet_self], rfl⟩
  · exact ⟨by simp [setDialogueState, alGet_alSet_self], rfl⟩
  · cases byId Item.id c.items _ <;> dsimp only <;>
      exact ⟨by simp [setDialogueState, alGet_alSet_self], rfl⟩

/-- C4: once the stored dialogue pointer of a character equals the id of a
self-looping node with no next-node pointer, every subsequent talk shows
exactly the same narration (in particular the same node text) and leaves
the pointer at that same node id — the dialogue never advances. -/
theorem dialogue_terminal_loop (c : Content) (ch : Character) (node : DialogueNode)
    (st : GameState)
    (hne : ch.dialogue ≠ [])
    (hfind : ch.dialogue.find? (fun nd => nd.id = node.id) = some node)
    (hloop : node.loop = some node.id)
    (hid : node.id ≠ "")
    (hnext : truthyStr node.nextNode = none)
    (hstate : alGet st.characterDialogueState ch.id = some node.id) :
    ∀ k, alGet ((talkRepeatedly c ch k st).characterDialogueState) ch.id = some node.id ∧
      (runDialogue c ch (talkRepeatedly c ch k st)).2 = (runDialogue c ch st).2 ∧
      Narration.dialogue ch.name node.text ∈ (runDialogue c ch (talkRepeatedly c ch k st)).2 := by
  have hstep := dialogue_loop_step c ch node
  have hpointer : ∀ k st', alGet st'.characterDialogueState ch.id = some node.id →
      alGet ((talkRepeatedly c ch k st').characterDialogueState) ch.id = some node.id := by
    intro k
    induction k with
    | zero => exact fun st' h => h
    | succ k ih =>
      intro st' h
      exact ih _ (hstep st' hne hfind hloop hid hnext h).1
  intro k
  have hk := hpointer k st hstate
  refine ⟨hk, ?_, ?_⟩
  · rw [(hstep _ hne hfind hloop hid hnext hk).2,
        (hstep _ hne hfind hloop hid hnext hstate).2]
  · rw [(hstep _ hne hfind hloop hid hnext hk).2]
    exact List.mem_cons_self _ _

/-!
## C6 — verb synonyms, articles, and letter case
-/

/-- C6: as long as the session verb-synonym table does not remap `get`,
`take` or `grab`, the inputs "get sword", "take the sword", "grab sword"
and "Get THE Sword" run through parsing and dispatch to the very same
handler invocation, producing identical resulting state and identical
narration. -/
theorem take_synonyms_equivalent (c : Content) (st : GameState)
    (syn dir : List (String × String))
    (hget : alGet syn ("get") = none)
    (htake : alGet syn ("take") = none)
    (hgrab : alGet syn ("grab") = none) :
    runInput c syn dir ("get sword") st = handleTake c (some ("sword")) st ∧
    runInput c syn dir ("take the sword") st = handleTake c (some ("sword")) st ∧
    runInput c syn dir ("grab sword") st = handleTake c (some ("sword")) st ∧
    runInput c syn dir ("Get THE Sword") st = handleTake c (some ("sword")) st := by
  have hvget : resolveVerbSynonym syn ("get") = "get" := by
    simp [resolveVerbSynonym, hget, strOr, truthyStr]
  have hvtake : resolveVerbSynonym syn ("take") = "take" := by
    simp [resolveVerbSynonym, htake, strOr, truthyStr]
  have hvgrab : resolveVerbSynonym syn ("grab") = "grab" := by
    simp [resolveVerbSynonym, hgrab, strOr, truthyStr]
  refine ⟨?_, ?_, ?_, ?_⟩
  · have hparse : parse syn dir ("get sword") =
        { verb := resolveVerbSynonym syn ("get"),
          noun := (parseNounPhrase dir ["sword"] (resolveVerbSynonym syn ("get"))).1,
          preposition := (parseNounPhrase dir ["sword"] (resolveVerbSynonym syn ("get"))).2.1,
          target := (parseNounPhrase dir ["sword"] (resolveVerbSynonym syn ("get"))).2.2,
          raw := "get sword", tokens := ["get", "sword"] } := rfl
    show execute c (parse syn dir ("get sword")) st = handleTake c (some ("sword")) st
    rw [hparse, hvget]
    rfl
  · have hparse : parse syn dir ("take the sword") =
        { verb := resolveVerbSynonym syn ("take"),
          noun := (parseNounPhrase dir ["sword"] (resolveVerbSynonym syn ("take"))).1,
          preposition := (parseNounPhrase dir ["sword"] (resolveVerbSynonym syn ("take"))).2.1,
          target := (parseNounPhrase dir ["sword"] (resolveVerbSynonym syn ("take"))).2.2,
          raw := "take the sword", tokens := ["take", "sword"] } := rfl
    show execute c (parse syn dir ("take the sword")) st = handleTake c (some ("sword")) st
    rw [hparse, hvtake]
    rfl
  · have hparse : parse syn dir ("grab sword") =
        { verb := resolveVerbSynonym syn ("grab"),
          noun := (parseNounPhrase dir ["sword"] (resolveVerbSynonym syn ("grab"))).1,
          preposition := (parseNounPhrase dir ["sword"] (resolveVerbSynonym syn ("grab"))).2.1,
          target := (parseNounPhrase dir ["sword"] (resolveVerbSynonym syn ("grab"))).2.2,
          raw := "grab sword", tokens := ["grab", "sword"] } := rfl
    show execute c (parse syn dir ("grab sword")) st = handleTake c (some ("sword")) st
    rw [hparse, hvgrab]
    rfl
  · have hparse : parse syn dir ("Get THE Sword") =
        { verb := resolveVerbSynonym syn ("get"),
          noun := (parseNounPhrase dir ["sword"] (resolveVerbSynonym syn ("get"))).1,
          preposition := (parseNounPhrase dir ["sword"] (resolveVerbSynonym syn ("get"))).2.1,
          target := (parseNounPhrase dir ["sword"] (resolveVerbSynonym syn ("get"))).2.2,
          raw := "Get THE Sword", tokens := ["get", "sword"] } := rfl
    show execute c (parse syn dir ("Get THE Sword")) st = handleTake c (some ("sword")) st
    rw [hparse, hvget]
    rfl

/-!
## C8 — direction resolution tables (amended)
-/

/-- C8 (amended): the Rule Engine's `handleGo` resolves the requested
direction through its own FIXED built-in abbreviation table
(`resolveDirectionSynonymBuiltin`), and that resolution decides which exit
key is looked up; the content-provider direction table is consulted only by
the Command Interpreter when it parses the noun of an explicit
go/walk/move command. -/
theorem direction_resolution_uses_builtin_table (c : Content) (st : GameState)
    (noun : Option String) (d : String) (room : Room)
    (hn : truthyStr noun = some d)
    (hroom : getCurrentRoomObj c st = some room) :
    (truthyStr (alGet room.exits (resolveDirectionSynonymBuiltin (toLowerStr d))) = none →
      handleGo c noun st = (st,
        [Narration.error ("You can't go " ++ resolveDirectionSynonymBuiltin (toLowerStr d)
          ++ " from here.")] ++ showAvailableExits room))
    ∧ (∀ targetRoomId targetRoom,
        truthyStr (alGet room.exits (resolveDirectionSynonymBuiltin (toLowerStr d)))
          = some targetRoomId →
        alGet room.lockedExits (resolveDirectionSynonymBuiltin (toLowerStr d)) = none →
        byId Room.id c.rooms targetRoomId = some targetRoom →
        (handleGo c noun st).1.currentRoomId = targetRoomId)
    ∧ (∀ (directionSynonyms : List (String × String)) (w : String),
        parseNounPhrase directionSynonyms [w] ("go")
          = (some (resolveDirection directionSynonyms w), none, none)) := by
  have hgo : handleGo c noun st =
      (match truthyStr (alGet room.exits (resolveDirectionSynonymBuiltin (toLowerStr d))) with
       | none =>
         (st, [Narration.error ("You can't go "
           ++ resolveDirectionSynonymBuiltin (toLowerStr d) ++ " from here.")]
           ++ showAvailableExits room)
       | some targetRoomId =>
         match alGet room.lockedExits (resolveDirectionSynonymBuiltin (toLowerStr d)) with
         | some lockedInfo =>
           if ¬ checkUnlockCondition st lockedInfo then
             (st, [Narration.warning (strOr lockedInfo.message
               ("The way " ++ resolveDirectionSynonymBuiltin (toLowerStr d) ++ " is locked."))])
           else performMove c st (resolveDirectionSynonymBuiltin (toLowerStr d)) targetRoomId
         | none => performMove c st (resolveDirectionSynonymBuiltin (toLowerStr d)) targetRoomId) := by
    unfold handleGo
    rw [hn]
    dsimp only
    rw [hroom]
  refine ⟨?_, ?_, ?_⟩
  · intro hexit
    rw [hgo, hexit]
  · intro targetRoomId targetRoom hexit hlock htarget
    rw [hgo, hexit]
    dsimp only
    rw [hlock]
    dsimp only
    unfold performMove
    rw [htarget]
    dsimp only
    exact currentRoomId_markRoomVisited _ _
  · intro directionSynonyms w
    rfl

/-!
## C10 — invisible items: hidden from listings, visible to resolution
-/

/-- C10: an item lying in the current room with `visible = false` is omitted
from the room-description listing, yet name resolution in the room ignores
the flag: take still succeeds (when takeable) and examine still shows the
item's description. -/
theorem invisible_item_reachable (c : Content) (st : GameState) (q : String) (item : Item)
    (hq : q ≠ "")
    (hvis : item.visible = false)
    (hbyid : byId Item.id c.items item.id = some item)
    (honly : stateItemsInRoom st st.currentRoomId = [item.id])
    (hmatch : itemMatches item (toLowerStr q) = true)
    (hninv : findItemInInventory c st (toLowerStr q) = none) :
    visibleItemsInRoom c st st.currentRoomId = [] ∧
    findItemInRoom c st (toLowerStr q) = some item ∧
    (item.takeable = true →
      item.id ∈ (handleTake c (some q) st).1.inventory ∧
      Narration.success ("You pick up the " ++ item.name ++ ".")
        ∈ (handleTake c (some q) st).2) ∧
    handleExamine c (some q) st = (st, [Narration.message (itemDescriptionText st item)]) := by
  have hqt : truthyStr (some q) = some q := by
    simp [truthyStr, hq]
  have hroomfind : findItemInRoom c st (toLowerStr q) = some item := by
    unfold findItemInRoom
    rw [honly]
    rw [List.findSome?_cons]
    rw [hbyid]
    dsimp only
    rw [if_pos hmatch]
  refine ⟨?_, hroomfind, ?_, ?_⟩
  · unfold visibleItemsInRoom
    rw [honly]
    simp [hbyid, hvis]
  · intro htake
    have h : handleTake c (some q) st =
        (let st1 := addItem st item.id
         let narr := [Narration.success ("You pick up the " ++ item.name ++ ".")]
         match item.onTake with
         | some ev =>
           let evr := processEvent ev st1
           (evr.1, narr ++ evr.2)
         | none => (st1, narr)) := by
      unfold handleTake
      rw [hqt]
      dsimp only
      rw [hroomfind]
      dsimp only
      rw [if_neg (by simp [htake])]
    rw [h]
    cases item.onTake with
    | none =>
      exact ⟨mem_addItem_self st item.id, List.mem_cons_self _ _⟩
    | some ev =>
      exact ⟨mem_processEvent_of_mem ev (mem_addItem_self st item.id),
        List.mem_cons_self _ _⟩
  · unfold handleExamine
    rw [hqt]
    dsimp only
    rw [hninv]
    dsimp only
    rw [hroomfind]

/-!
## C9 — inventory membership coincides with the "inventory" location record
-/

/-- C9: right after initialization and after any number of fully executed
commands, an item id is a member of the inventory sequence exactly when its
location record equals `"inventory"` — even though the low-level
`removeItem` does not touch the location record, every engine path that
removes an item also relocates it. -/
theorem inventory_location_coincide (cfg : Config) (c : Content)
    (syn dir : List (String × String)) (inputs : List String)
    (hrooms : RoomIdsOk c) (hstart : cfg.startingRoom ≠ "inventory") :
    (∀ itemId, itemId ∈ (initState cfg c).inventory ↔
      alGet (initState cfg c).itemLocations itemId = some ("inventory")) ∧
    (∀ itemId,
      itemId ∈ (stateAfter cfg c syn dir (initState cfg c) inputs).inventory ↔
      alGet (stateAfter cfg c syn dir (initState cfg c) inputs).itemLocations itemId
        = some ("inventory")) := by
  have h0 := invGood_initState cfg c hrooms hstart
  exact ⟨h0.2.1, (invGood_stateAfter cfg c syn dir _ inputs hrooms h0).2.1⟩

/-!
## Concrete scenarios for counterexamples and witnesses
-/

/-- C2 scenario: an item whose name merely CONTAINS the search term,
listed before an item whose name IS the search term. -/
def c2Rusty : Item := { id := "i1", name := "rusty sword" }

def c2Sword : Item := { id := "i2", name := "sword" }

def c2Content : Content := { rooms := [], items := [c2Rusty, c2Sword], characters := [] }

def c2State : GameState :=
  { currentRoomId := "hold", inventory := ["i1", "i2"], flags := [], visitedRooms := [],
    itemLocations := [("i1", "inventory"), ("i2", "inventory")], characterDialogueState := [] }

/-- C2 counterexample: searching the inventory for "sword" returns the FIRST
listed candidate `rusty sword`, which matches only by substring containment
(mode c), even though the later candidate `sword` matches by exact primary
name (mode a) — so a candidate matching by a higher-priority mode is NOT
returned in preference to an earlier candidate matching only by a
lower-priority mode. -/
theorem entity_resolution_mode_priority_counterexample :
    findItemInInventory c2Content c2State ("sword") = some c2Rusty ∧
    toLowerStr c2Rusty.name ≠ "sword" ∧
    toLowerStr c2Rusty.id ≠ "sword" ∧
    c2Rusty.aliases = [] ∧
    strIncludes (toLowerStr c2Rusty.name) ("sword") = true ∧
    "i2" ∈ c2State.inventory ∧
    byId Item.id c2Content.items ("i2") = some c2Sword ∧
    toLowerStr c2Sword.name = "sword" ∧
    c2Rusty ≠ c2Sword := by
  refine ⟨by decide, by decide, by decide, rfl, by decide, by decide, by decide,
    by decide, by decide⟩

/-- C2 witness for the amended claim. -/
theorem entity_resolution_first_candidate_witness :
    findItemInInventory c2Content c2State ("sword") = some c2Rusty :=
  entity_resolution_first_candidate c2Content c2State ("sword") [] ("i1") ["i2"] c2Rusty
    rfl (by decide) (by decide) (by decide)

/-- C8 scenario: the content direction table perversely maps "n" to "south";
room "a" has a south exit to "b" and a north exit to "cc". -/
def c8RoomA : Room := { id := "a", name := "A", exits := [("south", "b"), ("north", "cc")] }

def c8RoomB : Room := { id := "b", name := "B" }

def c8RoomC : Room := { id := "cc", name := "C" }

def c8Content : Content := { rooms := [c8RoomA, c8RoomB, c8RoomC], items := [], characters := [] }

def c8Directions : List (String × String) := [("n", "south")]

def c8State : GameState :=
  { currentRoomId := "a", inventory := [], flags := [], visitedRooms := [],
    itemLocations := [], characterDialogueState := [] }

/-- C8 counterexample: with the content table mapping "n" → "south", the
movement intent "n" still looks up the exit key "north" (the Rule Engine's
built-in resolution) and lands in room "cc", not in room "b" that the
content-configured mapping would select. -/
theorem direction_table_counterexample :
    alGet c8Directions ("n") = some ("south") ∧
    truthyStr (alGet c8RoomA.exits ("south")) = some ("b") ∧
    alGet c8RoomA.exits ("north") = some ("cc") ∧
    (runInput c8Content [] c8Directions ("n") c8State).1.currentRoomId = "cc" ∧
    (runInput c8Content [] c8Directions ("n") c8State).1.currentRoomId ≠ "b" := by
  refine ⟨by decide, by decide, by decide, by decide, by decide⟩

/-- C8 witness for the amended claim. -/
theorem direction_resolution_builtin_witness :
    (handleGo c8Content (some ("n")) c8State).1.currentRoomId = "cc" ∧
    parseNounPhrase c8Directions ["n"] ("go")
      = (some (resolveDirection c8Directions ("n")), none, none) :=
  ⟨(direction_resolution_uses_builtin_table c8Content c8State (some ("n")) ("n") c8RoomA
      rfl (by decide)).2.1 ("cc") c8RoomC (by decide) (by decide) (by decide),
   (direction_resolution_uses_builtin_table c8Content c8State (some ("n")) ("n") c8RoomA
      rfl (by decide)).2.2 c8Directions ("n")⟩

/-- C1 scenario: a vault east of the bridge, sealed behind a keycard. -/
def c1Lock : LockedExit :=
  { requiresItem := some ("keycard"), message := some ("The vault door is sealed.") }

def c1Bridge : Room :=
  { id := "bridge", name := "Bridge", exits := [("east", "vault")],
    lockedExits := [("east", c1Lock)] }

def c1Vault : Room := { id := "vault", name := "Vault" }

def c1Keycard : Item := { id := "keycard", name := "keycard" }

def c1Content : Content := { rooms := [c1Bridge, c1Vault], items := [c1Keycard], characters := [] }

def c1StateNoKey : GameState :=
  { currentRoomId := "bridge", inventory := [], flags := [], visitedRooms := [],
    itemLocations := [], characterDialogueState := [] }

def c1StateKey : GameState := { c1StateNoKey with
  inventory := ["keycard"], itemLocations := [("keycard", "inventory")] }

/-- C1 witness: without the keycard the move east is blocked with the
configured message and the state is untouched; with the keycard the move
goes through to the vault, which becomes visited. -/
theorem locked_exit_gating_witness :
    handleGo c1Content (some ("east")) c1StateNoKey =
      (c1StateNoKey, [Narration.warning ("The vault door is sealed.")]) ∧
    (handleGo c1Content (some ("east")) c1StateKey).1.currentRoomId = "vault" ∧
    "vault" ∈ (handleGo c1Content (some ("east")) c1StateKey).1.visitedRooms := by
  have h1 := locked_exit_gating c1Content c1StateNoKey (some ("east")) ("east") ("east")
    ("vault") c1Bridge c1Vault c1Lock rfl (by decide) (by decide) (by decide) (by decide)
    (by decide)
  have h2 := locked_exit_gating c1Content c1StateKey (some ("east")) ("east") ("east")
    ("vault") c1Bridge c1Vault c1Lock rfl (by decide) (by decide) (by decide) (by decide)
    (by decide)
  exact ⟨h1.2.1 (by decide), (h2.2.2 (by decide)).1, (h2.2.2 (by decide)).2.1⟩

/-- C3 scenario: a gadget whose targeted use-action is declared BEFORE its
default (no-target) use-action. -/
def c3ActionTargeted : UseAction :=
  { target := some ("door"), message := some ("You unlock the door.") }

def c3ActionDefault : UseAction := { message := some ("It hums quietly.") }

def c3Gadget : Item :=
  { id := "gadget", name := "gadget", useActions := [c3ActionTargeted, c3ActionDefault] }

def c3Content : Content := { rooms := [], items := [c3Gadget], characters := [] }

def c3State : GameState :=
  { currentRoomId := "hold", inventory := ["gadget"], flags := [], visitedRooms := [],
    itemLocations := [("gadget", "inventory")], characterDialogueState := [] }

/-- C3 witness: "use gadget" selects the default action even though it is
declared after the targeted one; "use gadget on door" selects the targeted
action; an unmatched target gives the neutral narration and no state
change. -/
theorem use_action_selection_witness :
    handleUse c3Content (some ("gadget")) none c3State =
      executeUseAction c3Content c3Gadget c3ActionDefault c3State ∧
    handleUse c3Content (some ("gadget")) (some ("door")) c3State =
      executeUseAction c3Content c3Gadget c3ActionTargeted c3State ∧
    handleUse c3Content (some ("gadget")) (some ("banana")) c3State =
      (c3State, [Narration.message
        ("Nothing happens when you try to use the gadget on banana.")]) := by
  have h1 := use_action_selection c3Content c3State (some ("gadget")) none ("gadget")
    c3Gadget rfl (by decide) (by decide)
  have h2 := use_action_selection c3Content c3State (some ("gadget")) (some ("door"))
    ("gadget") c3Gadget rfl (by decide) (by decide)
  have h3 := use_action_selection c3Content c3State (some ("gadget")) (some ("banana"))
    ("gadget") c3Gadget rfl (by decide) (by decide)
  refine ⟨?_, ?_, ?_⟩
  · exact h1.1 [c3ActionTargeted] c3ActionDefault [] rfl (by decide) (by decide) (by decide)
  · exact h2.2.2.1 ("door") [] c3ActionTargeted [c3ActionDefault] rfl (by decide)
      (by decide) (by decide)
  · exact h3.2.2.2 ("banana") rfl (by decide)

/-- C4 scenario: a robot whose second dialogue node loops to itself. -/
def c4Intro : DialogueNode := { id := "intro", text := "Hi.", nextNode := some ("ready") }

def c4Ready : DialogueNode := { id := "ready", text := "All set.", loop := some ("ready") }

def c4Bot : Character := { id := "bot", name := "Bot", dialogue := [c4Intro, c4Ready] }

def c4Content : Content :=
  { rooms := [{ id := "deck", name := "Deck", characters := ["bot"] }], items := [],
    characters := [c4Bot] }

def c4State : GameState :=
  { currentRoomId := "deck", inventory := [], flags := [], visitedRooms := [],
    itemLocations := [], characterDialogueState := [("bot", "ready")] }

/-- C4 witness: from the looping node, three more talks keep the pointer at
"ready" and replay exactly the same narration, containing the node text. -/
theorem dialogue_terminal_loop_witness :
    alGet ((talkRepeatedly c4Content c4Bot 3 c4State).characterDialogueState) ("bot")
      = some ("ready") ∧
    (runDialogue c4Content c4Bot (talkRepeatedly c4Content c4Bot 3 c4State)).2 =
      (runDialogue c4Content c4Bot c4State).2 ∧
    Narration.dialogue ("Bot") ("All set.")
      ∈ (runDialogue c4Content c4Bot (talkRepeatedly c4Content c4Bot 3 c4State)).2 :=
  dialogue_terminal_loop c4Content c4Bot c4Ready c4State (by decide) (by decide) rfl
    (by decide) rfl (by decide) 3

/-- C5 scenario: one objective flag, set by the gadget's use-action. -/
def c5Gadget : Item :=
  { id := "gadget", name := "gadget",
    useActions := [{ setFlag := some ("foundKey"), message := some ("Click.") }] }

def c5Content : Content :=
  { rooms := [{ id := "start", name := "Start" }], items := [c5Gadget], characters := [] }

def c5Config : Config :=
  { startingRoom := "start",
    objectives := some [{ flag := "foundKey", description := "Find the key" }] }

def c5State : GameState :=
  { currentRoomId := "start", inventory := ["gadget"], flags := [], visitedRooms := [],
    itemLocations := [("gadget", "inventory")], characterDialogueState := [] }

/-- C5 witness: in a session running "use gadget" then "look", the victory
narration fires exactly on turn 0 (which sets the objective flag) and not on
turn 1, and the completion flag is recorded. -/
theorem victory_narration_once_witness :
    victoryNarrAt c5Config c5Content [] [] c5State ["use gadget", "look"] 0 =
      [victoryNarration c5Config] ∧
    getFlag (stateAfter c5Config c5Content [] [] c5State
      (["use gadget", "look"].take 1)) ("gameCompleted") = true ∧
    victoryNarrAt c5Config c5Content [] [] c5State ["use gadget", "look"] 1 = [] := by
  have h0 := victory_narration_once c5Config c5Content [] [] c5State ["use gadget", "look"]
    (by decide) (by decide) 0 (by decide)
  refine ⟨(h0.2.1 (by decide)).1, (h0.2.1 (by decide)).2, ?_⟩
  exact h0.2.2 (by decide) 1 (by decide) (by decide)

/-- C6 witness: with an empty synonym table, the four spellings all reduce
to the same take-handler invocation. -/
theorem take_synonyms_equivalent_witness :
    runInput c1Content [] [] ("get sword") c1StateNoKey
      = handleTake c1Content (some ("sword")) c1StateNoKey ∧
    runInput c1Content [] [] ("take the sword") c1StateNoKey
      = handleTake c1Content (some ("sword")) c1StateNoKey ∧
    runInput c1Content [] [] ("grab sword") c1StateNoKey
      = handleTake c1Content (some ("sword")) c1StateNoKey ∧
    runInput c1Content [] [] ("Get THE Sword") c1StateNoKey
      = handleTake c1Content (some ("sword")) c1StateNoKey :=
  take_synonyms_equivalent c1Content c1StateNoKey [] [] rfl rfl rfl

/-- C7 scenario: a wrench lying in the current room, not carried. -/
def c7Wrench : Item := { id := "wrench", name := "wrench" }

def c7Content : Content :=
  { rooms := [{ id := "bay", name := "Bay" }], items := [c7Wrench], characters := [] }

def c7State : GameState :=
  { currentRoomId := "bay", inventory := [], flags := [], visitedRooms := [],
    itemLocations := [("wrench", "bay")], characterDialogueState := [] }

/-- C7 witness: "use wrench" with the wrench on the floor instructs the
player to take it first (a warning naming the item), not the not-found
error, and changes nothing. -/
theorem use_room_item_take_first_witness :
    handleUse c7Content (some ("wrench")) none c7State =
      (c7State, [Narration.warning
        ("You need to pick up the wrench first. Try \"take wrench\".")]) ∧
    (handleUse c7Content (some ("wrench")) none c7State).2 ≠
      [Narration.error ("You don't have any \"wrench\".")] :=
  use_room_item_take_first c7Content c7State (some ("wrench")) none ("wrench") c7Wrench
    rfl (by decide) (by decide)

/-- C9 scenario: a coin in the starting room; the session takes it and drops
it again. -/
def c9Coin : Item := { id := "coin", name := "coin" }

def c9Content : Content :=
  { rooms := [{ id := "start", name := "Start", items := ["coin"] }], items := [c9Coin],
    characters := [] }

def c9Config : Config := { startingRoom := "start" }

/-- C9 witness. -/
theorem inventory_location_coincide_witness :
    (∀ itemId, itemId ∈ (initState c9Config c9Content).inventory ↔
      alGet (initState c9Config c9Content).itemLocations itemId = some ("inventory")) ∧
    (∀ itemId,
      itemId ∈ (stateAfter c9Config c9Content [] [] (initState c9Config c9Content)
        ["take coin", "drop coin", "take coin"]).inventory ↔
      alGet (stateAfter c9Config c9Content [] [] (initState c9Config c9Content)
        ["take coin", "drop coin", "take coin"]).itemLocations itemId
        = some ("inventory")) :=
  inventory_location_coincide c9Config c9Content [] []
    ["take coin", "drop coin", "take coin"] (by unfold RoomIdsOk; decide) (by decide)

/-- C10 scenario: an invisible but takeable lever in the current room. -/
def c10Lever : Item := { id := "lever", name := "hidden lever", visible := false }

def c10Content : Content :=
  { rooms := [{ id := "shaft", name := "Shaft" }], items := [c10Lever], characters := [] }

def c10State : GameState :=
  { currentRoomId := "shaft", inventory := [], flags := [], visitedRooms := [],
    itemLocations := [("lever", "shaft")], characterDialogueState := [] }

/-- C10 witness: the lever never shows in the room listing, yet resolves,
can be taken, and can be examined. -/
theorem invisible_item_reachable_witness :
    visibleItemsInRoom c10Content c10State ("shaft") = [] ∧
    findItemInRoom c10Content c10State (toLowerStr ("lever")) = some c10Lever ∧
    ("lever" ∈ (handleTake c10Content (some ("lever")) c10State).1.inventory ∧
      Narration.success ("You pick up the hidden lever.")
        ∈ (handleTake c10Content (some ("lever")) c10State).2) ∧
    handleExamine c10Content (some ("lever")) c10State =
      (c10State, [Narration.message (itemDescriptionText c10State c10Lever)]) := by
  have h := invisible_item_reachable c10Content c10State ("lever") c10Lever (by decide)
    (by decide) (by decide) (by decide) (by decide) (by decide)
  exact ⟨h.1, h.2.1, h.2.2.1 (by decide), h.2.2.2⟩
